/-
Verification of the EMET Guardian transaction decoder and risk engine.

The repository carries two structurally similar copies of the core:
a standalone module copy (namespace `Content`, from `src/content.ts`,
which concatenates the content script, the risk-rules module and the
SPL-token decoder module) and an inlined page-context copy
(namespace `Hook`, from `src/inject/phantomHook.ts`).  Shared primitives
(base58 codec, compact-u16 varint, u64 reader, address truncation) are
textually identical in both copies and are defined once below.

Byte buffers (`Uint8Array` in the source) are modelled as `List Nat`;
JavaScript out-of-range reads (`undefined`) are modelled with `Option` /
`getD` following the way each `undefined` is consumed by the source
(`undefined & x` is `0`, `undefined` is falsy, etc.).  Fallible code
(`decodeBase58` throwing on an invalid character) returns `Except`.
-/

import Mathlib

/-- JavaScript `arr.slice(start, start + len)` on a `Uint8Array`:
clamps to the array bounds, never fails. -/
def jsSlice (l : List Nat) (start len : Nat) : List Nat :=
  (l.drop start).take len

/-- `truncateAddress` (identical `truncateAddr` in the hook copy): JS
`if (!address) return 'unknown'` is truthiness, so both a missing and an
empty string render as `"unknown"`. -/
def truncateAddress (address : Option String) : String :=
  match address with
  | none => "unknown"
  | some s =>
    if s = "" then "unknown"
    else if s.length ≤ 12 then s
    else s.take 6 ++ "..." ++ s.takeRight 4

/-- JS `a || b` for an optional string `a`: `undefined` and `""` are falsy. -/
def jsOrString (a : Option String) (b : String) : String :=
  match a with
  | none => b
  | some s => if s = "" then b else s

/-- JS truthiness of an optional string field. -/
def jsTruthy (a : Option String) : Bool :=
  match a with
  | none => false
  | some s => s ≠ ""

/-- `readCompactU16(data, offset)`: at most three iterations; each byte
contributes its low 7 bits, the high bit is the continuation flag, and
the third byte is taken as final regardless of its high bit.  A read past
the end of the buffer yields JS `undefined`, and `undefined & x` is `0`,
so missing bytes both contribute zero and stop the loop. -/
def readCompactU16 (data : List Nat) (offset : Nat) : Nat × Nat :=
  let byte0 := data.getD offset 0
  let v0 := byte0 &&& 0x7f
  if byte0 &&& 0x80 = 0 then (v0, 1)
  else
    let byte1 := data.getD (offset + 1) 0
    let v1 := v0 ||| ((byte1 &&& 0x7f) <<< 7)
    if byte1 &&& 0x80 = 0 then (v1, 2)
    else
      let byte2 := data.getD (offset + 2) 0
      (v1 ||| ((byte2 &&& 0x7f) <<< 14), 3)

/-- `readUint64LE(data, offset)`: eight bytes low-to-high, bytes past the
buffer end (`data[i] ?? 0`) are zero. -/
def readUint64LE (data : List Nat) (offset : Nat) : Nat :=
  (List.range 8).foldl (fun result i => result ||| ((data.getD (offset + i) 0) <<< (8 * i))) 0

/-- The fixed 58-character alphabet of the codec. -/
def BASE58_ALPHABET : String :=
  "123456789ABCDEFGHJKLMNPQRSTUVWXYZabcdefghijkmnopqrstuvwxyz"

/-- Count of leading zero bytes, as in the `encodeBase58` zeros loop. -/
def leadingZeroCount : List Nat → Nat
  | [] => 0
  | b :: r => if b = 0 then leadingZeroCount r + 1 else 0

/-- Count of leading `'1'` characters, as in the `decodeBase58` zeros loop. -/
def leadingOneCount : List Char → Nat
  | [] => 0
  | c :: r => if c = '1' then leadingOneCount r + 1 else 0

/-- `num = num * 256 + byte` accumulation over the whole byte list. -/
def bytesToNat (bytes : List Nat) : Nat :=
  bytes.foldl (fun num byte => num * 256 + byte) 0

/-- Most-significant-first digit expansion of `n` in base `b`, written with
explicit fuel so that it evaluates by kernel reduction; `natDigitsMSB`
supplies fuel `n`, which is sufficient since `n / b < n` for `b ≥ 2`.
This is the source's `while (num > 0) result.unshift(num % b); num /= b`. -/
def natDigitsAux (b : Nat) : Nat → Nat → List Nat
  | 0, _ => []
  | fuel + 1, n => if n = 0 then [] else natDigitsAux b fuel (n / b) ++ [n % b]

/-- Most-significant-first base-`b` digits of `n` (empty for `n = 0`). -/
def natDigitsMSB (b n : Nat) : List Nat :=
  natDigitsAux b n n

/-- `encodeBase58`: leading zero bytes become leading `'1'` characters,
the remaining magnitude is written in base 58, most significant first. -/
def encodeBase58 (bytes : List Nat) : String :=
  if bytes = [] then ""
  else
    let zeros := leadingZeroCount bytes
    let digits := natDigitsMSB 58 (bytesToNat bytes)
    String.mk ((List.replicate zeros 0 ++ digits).map
      (fun d => BASE58_ALPHABET.data.getD d ' '))

/-- `BASE58_ALPHABET.indexOf(char)`, with `none` for the source's `-1`. -/
def b58Index (c : Char) : Option Nat :=
  List.indexOf? c BASE58_ALPHABET.data

/-- The `num = num * 58 + index` accumulation of `decodeBase58`, throwing
on the first character outside the alphabet. -/
def decodeFoldNum : List Char → Nat → Except String Nat
  | [], num => .ok num
  | c :: r, num =>
    match b58Index c with
    | none => .error "Invalid base58 character"
    | some i => decodeFoldNum r (num * 58 + i)

/-- `decodeBase58`: the one routine of the core allowed to fail outward. -/
def decodeBase58 (str : String) : Except String (List Nat) :=
  if str = "" then .ok []
  else
    match decodeFoldNum str.data 0 with
    | .error e => .error e
    | .ok num =>
      let zeros := leadingOneCount str.data
      .ok (List.replicate zeros 0 ++ natDigitsMSB 256 num)

/-- `'TokenkegQfeZyiNwAJbNbGKPFXCWuBvf9Ss623VQ5DA'`, the well-known token
program address (identical constant in both copies). -/
def SPL_TOKEN_PROGRAM_ID : String := "TokenkegQfeZyiNwAJbNbGKPFXCWuBvf9Ss623VQ5DA"

/-- The `AUTHORITY_TYPES` lookup table. -/
def AUTHORITY_TYPES (n : Nat) : Option String :=
  match n with
  | 0 => some "MintTokens"
  | 1 => some "FreezeAccount"
  | 2 => some "AccountOwner"
  | 3 => some "CloseAccount"
  | _ => none

/-- `AUTHORITY_TYPES[n] || 'Unknown(n)'`. -/
def authorityTypeName (n : Nat) : String :=
  match AUTHORITY_TYPES n with
  | some s => s
  | none => "Unknown(" ++ toString n ++ ")"

/-- `MAX_U64 = 18446744073709551615`. -/
def MAX_U64 : Nat := 2 ^ 64 - 1

/-- `UNLIMITED_THRESHOLD = MAX_U64 * 999n / 1000n` (BigInt division truncates). -/
def UNLIMITED_THRESHOLD : Nat := MAX_U64 * 999 / 1000

/-- The `SAFE_PROGRAM_IDS` allow-list (identical in both copies). -/
def SAFE_PROGRAM_IDS : List String :=
  [SPL_TOKEN_PROGRAM_ID,
   "TokenzQdBNbLqP5VEhdkAS6EPFLC1PHnBqCXEpPxuEb",
   "11111111111111111111111111111111",
   "ATokenGPvbdGVxr1b2hvZbsiqW5xWH25efTNsLJA8knL",
   "ComputeBudget111111111111111111111111111111",
   "metaqbxxUerdq28cj1RbAWkYQm3ybzjb6a8bt518x1s",
   "JUP6LkbZbjS1jKKwapdHNy74zcZ3tLUZoi5QNyVTaV4",
   "whirLbMiicVdio4qvUfM5KAg6Ct8VwpYzGff3uctyCc",
   "CAMMCzo5YL8w4VFF8KVHrK22GGUsp5VTaW7grrKgrWqK",
   "srmqPvymJeFKQ4zGQed1GFppgkRHL9kaELCbyksJtPX",
   "LBUZKhRxPF3XUpBCjp4YzTKgLccjZhTSDM9YuVaPwxo"]

/-- `MULTI_ACCOUNT_THRESHOLD = 3`. -/
def MULTI_ACCOUNT_THRESHOLD : Nat := 3

/-- `LARGE_AMOUNT_THRESHOLD = 1000000000000n` (content-script rule engine only). -/
def LARGE_AMOUNT_THRESHOLD : Nat := 1000000000000

/-- One rule finding.  The source pushes plain strings; each constructor
carries exactly the dynamic data interpolated into the corresponding
string (addresses already truncated where the source truncates them):
`unlimitedApproval` = "UNLIMITED TOKEN APPROVAL ...", `authorityTransfer`
= "AUTHORITY TRANSFER ...", `authorityRevocation` = "AUTHORITY REVOCATION
...", `multiAccount` = "MULTI-ACCOUNT OPERATION ...", `unknownProgram` =
"UNKNOWN PROGRAM ...", `drainPattern` = "DRAIN PATTERN DETECTED ...",
`suspiciousClose` = "SUSPICIOUS ACCOUNT CLOSURE ...", `largeTransfer` =
"LARGE TRANSFER ...". -/
inductive Reason where
  | unlimitedApproval (delegate : String)
  | authorityTransfer (authorityType : String) (newAuthority : String)
  | authorityRevocation (authorityType : String)
  | multiAccount (count : Nat)
  | unknownProgram (programId : String)
  | drainPattern
  | suspiciousClose (destination : String)
  | largeTransfer (amount : Nat) (destination : String)
  deriving DecidableEq, Repr

/-- `RiskAssessment` interface: `isHighRisk: reasons.length > 0`. -/
structure RiskAssessment where
  isHighRisk : Bool
  reasons : List Reason
  deriving DecidableEq, Repr

/-- Sequential `reasons.push(...)` accumulation over a loop body that may
push zero, one or two findings per element. -/
def collect (f : α → List β) : List α → List β
  | [] => []
  | x :: r => f x ++ collect f r

/-- JS `new Set()` + ordered `add`: insert only if absent. -/
def addUnique (l : List String) (s : String) : List String :=
  if s ∈ l then l else l ++ [s]

/-- `accountKeys[idx] || unknown_idx`: an out-of-range index, and also an
empty (falsy) rendered key, degrade to the placeholder. -/
def resolveIndex (accountKeys : List String) (i : Nat) : String :=
  match accountKeys[i]? with
  | none => "unknown_" ++ toString i
  | some s => if s = "" then "unknown_" ++ toString i else s

namespace Content

/-- The `raw` payload kept on minimal / unrecognized variants. -/
structure RawInstruction where
  programId : String
  data : List Nat
  accounts : List String
  deriving DecidableEq, Repr

/-- `DecodedInstruction` of the standalone decoder module.  The `owner`
field of the TypeScript interface is never assigned and is omitted. -/
structure DecodedInstruction where
  program : String
  type : String
  source : Option String
  destination : Option String
  authority : Option String
  newAuthority : Option String
  authorityType : Option String
  amount : Option Nat
  mint : Option String
  raw : Option RawInstruction
  deriving DecidableEq, Repr

/-- A variant with every optional field absent except the raw payload. -/
def minimalWithRaw (program type programId : String) (data : List Nat)
    (accounts : List String) : DecodedInstruction :=
  { program := program, type := type, source := none, destination := none,
    authority := none, newAuthority := none, authorityType := none,
    amount := none, mint := none, raw := some ⟨programId, data, accounts⟩ }

/-- `decodeInstruction` of the standalone module: every recognized
discriminator checks both its minimum data length and minimum account
count before populating fields. -/
def decodeInstruction (programId : String) (data : List Nat)
    (accounts : List String) : DecodedInstruction :=
  if programId ≠ SPL_TOKEN_PROGRAM_ID then
    minimalWithRaw "unknown" "unknown" programId data accounts
  else
    match data.head? with
    | none => minimalWithRaw "spl-token" "unknown" programId data accounts
    | some instructionType =>
      if instructionType = 3 then
        -- Transfer: source(0), destination(1), owner(2); data [type, amount(8)]
        if data.length < 9 ∨ accounts.length < 3 then
          minimalWithRaw "spl-token" "transfer" programId data accounts
        else
          { program := "spl-token", type := "transfer", source := accounts[0]?,
            destination := accounts[1]?, authority := accounts[2]?,
            newAuthority := none, authorityType := none,
            amount := some (readUint64LE data 1), mint := none, raw := none }
      else if instructionType = 12 then
        -- TransferChecked: source(0), mint(1), destination(2), owner(3)
        if data.length < 10 ∨ accounts.length < 4 then
          minimalWithRaw "spl-token" "transfer" programId data accounts
        else
          { program := "spl-token", type := "transfer", source := accounts[0]?,
            destination := accounts[2]?, authority := accounts[3]?,
            newAuthority := none, authorityType := none,
            amount := some (readUint64LE data 1), mint := accounts[1]?, raw := none }
      else if instructionType = 4 then
        -- Approve: source(0), delegate(1), owner(2)
        if data.length < 9 ∨ accounts.length < 3 then
          minimalWithRaw "spl-token" "approve" programId data accounts
        else
          { program := "spl-token", type := "approve", source := accounts[0]?,
            destination := accounts[1]?, authority := accounts[2]?,
            newAuthority := none, authorityType := none,
            amount := some (readUint64LE data 1), mint := none, raw := none }
      else if instructionType = 13 then
        -- ApproveChecked: source(0), mint(1), delegate(2), owner(3)
        if data.length < 10 ∨ accounts.length < 4 then
          minimalWithRaw "spl-token" "approve" programId data accounts
        else
          { program := "spl-token", type := "approve", source := accounts[0]?,
            destination := accounts[2]?, authority := accounts[3]?,
            newAuthority := none, authorityType := none,
            amount := some (readUint64LE data 1), mint := accounts[1]?, raw := none }
      else if instructionType = 6 then
        -- SetAuthority: account(0), currentAuthority(1);
        -- data [type, authorityType, hasNewAuthority, newAuthority?(32)]
        if data.length < 3 ∨ accounts.length < 2 then
          minimalWithRaw "spl-token" "setAuthority" programId data accounts
        else
          let authorityTypeNum := data.getD 1 0
          let hasNewAuthority := data.getD 2 0 = 1
          let newAuthority : Option String :=
            if hasNewAuthority ∧ 35 ≤ data.length then
              some (encodeBase58 (jsSlice data 3 32))
            else none
          { program := "spl-token", type := "setAuthority", source := accounts[0]?,
            destination := none, authority := accounts[1]?,
            newAuthority := newAuthority,
            authorityType := some (authorityTypeName authorityTypeNum),
            amount := none, mint := none, raw := none }
      else if instructionType = 9 then
        -- CloseAccount: account(0), destination(1), owner(2); data [type]
        if accounts.length < 3 then
          minimalWithRaw "spl-token" "close" programId data accounts
        else
          { program := "spl-token", type := "close", source := accounts[0]?,
            destination := accounts[1]?, authority := accounts[2]?,
            newAuthority := none, authorityType := none,
            amount := none, mint := none, raw := none }
      else
        minimalWithRaw "spl-token" "unknown" programId data accounts

end Content

namespace Content

/-- `TransactionAnalysis` of the standalone module (`affectedAccounts` is
a JS `Set`, modelled as an insertion-ordered duplicate-free list). -/
structure TransactionAnalysis where
  instructions : List DecodedInstruction
  affectedAccounts : List String
  splTokenInstructions : List DecodedInstruction
  deriving DecidableEq, Repr

/-- Account resolution `accountKeys[idx] || unknown_idx` where the index
itself may be a JS `undefined` read past the buffer end (the content-script
parser reads indices without a bounds check). -/
def resolveAccount (accountKeys : List String) (idx : Option Nat) : String :=
  match idx with
  | none => "unknown_undefined"
  | some i => resolveIndex accountKeys i

/-- Program resolution `accountKeys[programIdIndex] || unknown_program_idx`. -/
def resolveProgramId (accountKeys : List String) (idx : Option Nat) : String :=
  match idx with
  | none => "unknown_program_undefined"
  | some i =>
    match accountKeys[i]? with
    | none => "unknown_program_" ++ toString i
    | some s => if s = "" then "unknown_program_" ++ toString i else s

/-- Mutable state of the per-instruction parsing loop. -/
structure ParseState where
  offset : Nat
  instructions : List DecodedInstruction
  affected : List String
  deriving DecidableEq, Repr

/-- One iteration of the content-script instruction loop: program index
byte, account-count varint, account index bytes, data-length varint, data
bytes.  No offset is ever bounds-checked; reads past the end give
`undefined` (`none` for the direct byte reads, zero inside the varints). -/
def parseStep (bytes : List Nat) (accountKeys : List String) (s : ParseState) :
    ParseState :=
  let programIdIndex := bytes[s.offset]?
  let o1 := s.offset + 1
  let na := readCompactU16 bytes o1
  let numAccountsInInstruction := na.1
  let o2 := o1 + na.2
  let accountIndices := (List.range numAccountsInInstruction).map
    (fun j => bytes[o2 + j]?)
  let o3 := o2 + numAccountsInInstruction
  let dl := readCompactU16 bytes o3
  let dataLength := dl.1
  let o4 := o3 + dl.2
  let data := jsSlice bytes o4 dataLength
  let o5 := o4 + dataLength
  let accounts := accountIndices.map (resolveAccount accountKeys)
  let programId := resolveProgramId accountKeys programIdIndex
  let affected := accounts.foldl addUnique s.affected
  let decoded := decodeInstruction programId data accounts
  { offset := o5, instructions := s.instructions ++ [decoded], affected := affected }

/-- The `for (let i = 0; i < numInstructions; i++)` loop (no break). -/
def parseLoop (bytes : List Nat) (accountKeys : List String) :
    Nat → ParseState → ParseState
  | 0, s => s
  | n + 1, s => parseLoop bytes accountKeys n (parseStep bytes accountKeys s)

/-- Where the content-script parser starts reading the message body for a
nonempty buffer: it always computes `1 + bytes[0] * 64` (no `≤ 127` check)
and falls back to offset 0 only when that lands at or past the end. -/
def messageStart (bytes : List Nat) : Nat :=
  match bytes.head? with
  | none => 0
  | some numSignatures =>
    let o := 1 + numSignatures * 64
    if bytes.length ≤ o then 0 else o

/-- Everything before the instruction loop: 3 header bytes, account-count
varint, 32-byte keys (read without any bounds check — a key sliced past
the end renders as the empty string), 32-byte blockhash, instruction-count
varint. -/
structure ParsedHeader where
  accountKeys : List String
  instructionsStart : Nat
  numInstructions : Nat
  deriving DecidableEq, Repr

/-- Header phase of `analyzeTransaction` (nonempty buffer). -/
def parseHeader (bytes : List Nat) : ParsedHeader :=
  let o0 := messageStart bytes + 3
  let na := readCompactU16 bytes o0
  let numAccounts := na.1
  let o1 := o0 + na.2
  let accountKeys := (List.range numAccounts).map
    (fun i => encodeBase58 (jsSlice bytes (o1 + 32 * i) 32))
  let o2 := o1 + 32 * numAccounts + 32
  let ni := readCompactU16 bytes o2
  { accountKeys := accountKeys, instructionsStart := o2 + ni.2,
    numInstructions := ni.1 }

/-- `analyzeTransaction`.  On the empty buffer the JS offset becomes `NaN`
(`1 + undefined * 64`), every subsequent read is `undefined`, both varints
decode to zero and the result is the empty analysis; that case is split
out explicitly. -/
def analyzeTransaction (serializedTx : List Nat) : TransactionAnalysis :=
  if serializedTx = [] then
    { instructions := [], affectedAccounts := [], splTokenInstructions := [] }
  else
    let h := parseHeader serializedTx
    let final := parseLoop serializedTx h.accountKeys h.numInstructions
      { offset := h.instructionsStart, instructions := [], affected := [] }
    { instructions := final.instructions,
      affectedAccounts := final.affected,
      splTokenInstructions := final.instructions.filter
        (fun ix => ix.program == "spl-token") }

/-- Rule 1: unlimited or near-unlimited token approval. -/
def ruleUnlimitedApproval (spl : List DecodedInstruction) : List Reason :=
  collect (fun ix =>
    if ix.type == "approve" then
      match ix.amount with
      | some amount =>
        if UNLIMITED_THRESHOLD ≤ amount then
          [Reason.unlimitedApproval (truncateAddress ix.destination)]
        else []
      | none => []
    else []) spl

/-- Rule 2: `SetAuthority` transferring or revoking authority held by the
user (two independent, mutually exclusive pushes per instruction). -/
def ruleSetAuthority (spl : List DecodedInstruction) (userWallet : String) :
    List Reason :=
  collect (fun ix =>
    if ix.type == "setAuthority" then
      (if ix.authority == some userWallet && jsTruthy ix.newAuthority
          && ix.newAuthority != some userWallet then
        [Reason.authorityTransfer (jsOrString ix.authorityType "account")
          (truncateAddress ix.newAuthority)]
      else []) ++
      (if ix.authority == some userWallet && !jsTruthy ix.newAuthority then
        [Reason.authorityRevocation (jsOrString ix.authorityType "account")]
      else [])
    else []) spl

/-- The `affectedTokenAccounts` set: `if (ix.source) add(ix.source)` over
every token instruction (truthiness skips absent and empty sources). -/
def affectedTokenAccounts (spl : List DecodedInstruction) : List String :=
  spl.foldl (fun set ix =>
    match ix.source with
    | some s => if s = "" then set else addUnique set s
    | none => set) []

/-- Rule 3: at least `MULTI_ACCOUNT_THRESHOLD` distinct source accounts. -/
def ruleMultiAccount (spl : List DecodedInstruction) : List Reason :=
  if MULTI_ACCOUNT_THRESHOLD ≤ (affectedTokenAccounts spl).length then
    [Reason.multiAccount (affectedTokenAccounts spl).length]
  else []

/-- Rule 4: unknown program outside the allow-list touching the user. -/
def ruleUnknownProgram (instructions : List DecodedInstruction)
    (userWallet : String) : List Reason :=
  collect (fun ix =>
    if ix.program == "unknown" then
      match ix.raw with
      | some raw =>
        if raw.programId ∉ SAFE_PROGRAM_IDS ∧ userWallet ∈ raw.accounts then
          [Reason.unknownProgram (truncateAddress (some raw.programId))]
        else []
      | none => []
    else []) instructions

/-- Rule 5: drain pattern — an approve/setAuthority combined with a
transfer/close whose (truthy) destination differs from the user. -/
def ruleDrainPattern (spl : List DecodedInstruction) (userWallet : String) :
    List Reason :=
  let hasApprove := spl.any (fun ix => ix.type == "approve")
  let hasSetAuthority := spl.any (fun ix => ix.type == "setAuthority")
  let hasTransferOrClose := spl.any
    (fun ix => ix.type == "transfer" || ix.type == "close")
  if (hasApprove || hasSetAuthority) && hasTransferOrClose then
    let suspiciousPattern := spl.any (fun ix =>
      (ix.type == "transfer" && jsTruthy ix.destination
        && ix.destination != some userWallet) ||
      (ix.type == "close" && jsTruthy ix.destination
        && ix.destination != some userWallet))
    if suspiciousPattern then [Reason.drainPattern] else []
  else []

/-- Rule 6: close account sending rent to a different address. -/
def ruleSuspiciousClose (spl : List DecodedInstruction) (userWallet : String) :
    List Reason :=
  collect (fun ix =>
    if ix.type == "close" && jsTruthy ix.destination
        && ix.destination != some userWallet then
      [Reason.suspiciousClose (truncateAddress ix.destination)]
    else []) spl

/-- Rule 7: large transfer to a different address. -/
def ruleLargeTransfer (spl : List DecodedInstruction) (userWallet : String) :
    List Reason :=
  collect (fun ix =>
    if ix.type == "transfer" then
      match ix.amount with
      | some amount =>
        if jsTruthy ix.destination && ix.destination != some userWallet then
          if LARGE_AMOUNT_THRESHOLD ≤ amount then
            [Reason.largeTransfer amount (truncateAddress ix.destination)]
          else []
        else []
      | none => []
    else []) spl

/-- `assessRisk` of the risk-rules module: all seven rules evaluated in
source order, findings additive. -/
def assessRisk (analysis : TransactionAnalysis) (userWallet : String) :
    RiskAssessment :=
  let spl := analysis.splTokenInstructions
  let reasons :=
    ruleUnlimitedApproval spl ++
    ruleSetAuthority spl userWallet ++
    ruleMultiAccount spl ++
    ruleUnknownProgram analysis.instructions userWallet ++
    ruleDrainPattern spl userWallet ++
    ruleSuspiciousClose spl userWallet ++
    ruleLargeTransfer spl userWallet
  { isHighRisk := !reasons.isEmpty, reasons := reasons }

end Content

namespace Hook

/-- `DecodedInstruction` of the inlined page-context copy: instead of a
`raw` payload, unknown-program results carry `programId` and `accounts`
directly. -/
structure DecodedInstruction where
  program : String
  type : String
  source : Option String
  destination : Option String
  authority : Option String
  newAuthority : Option String
  authorityType : Option String
  amount : Option Nat
  accounts : Option (List String)
  programId : Option String
  deriving DecidableEq, Repr

/-- A variant with every optional field absent. -/
def minimal (program type : String) : DecodedInstruction :=
  { program := program, type := type, source := none, destination := none,
    authority := none, newAuthority := none, authorityType := none,
    amount := none, accounts := none, programId := none }

/-- `decodeInstruction` of the page-context copy.  Unlike the standalone
module, the Transfer/TransferChecked/Approve/ApproveChecked cases check
only the data length — not the account count — before populating fields;
account fields are whatever `accounts[i]` holds (`undefined` when the
list is short). -/
def decodeInstruction (programId : String) (data : List Nat)
    (accounts : List String) : DecodedInstruction :=
  if programId ≠ SPL_TOKEN_PROGRAM_ID then
    { minimal "unknown" "unknown" with
        programId := some programId, accounts := some accounts }
  else
    match data.head? with
    | none => minimal "spl-token" "unknown"
    | some instructionType =>
      if instructionType = 3 ∨ instructionType = 12 then
        let isChecked := instructionType = 12
        if data.length < (if isChecked then 10 else 9) then
          minimal "spl-token" "transfer"
        else
          { minimal "spl-token" "transfer" with
              source := accounts[0]?,
              destination := if isChecked then accounts[2]? else accounts[1]?,
              authority := if isChecked then accounts[3]? else accounts[2]?,
              amount := some (readUint64LE data 1) }
      else if instructionType = 4 ∨ instructionType = 13 then
        let isChecked := instructionType = 13
        if data.length < (if isChecked then 10 else 9) then
          minimal "spl-token" "approve"
        else
          { minimal "spl-token" "approve" with
              source := accounts[0]?,
              destination := if isChecked then accounts[2]? else accounts[1]?,
              authority := if isChecked then accounts[3]? else accounts[2]?,
              amount := some (readUint64LE data 1) }
      else if instructionType = 6 then
        if data.length < 3 ∨ accounts.length < 2 then
          minimal "spl-token" "setAuthority"
        else
          let authorityTypeNum := data.getD 1 0
          let hasNewAuthority := data.getD 2 0 = 1
          let newAuthority : Option String :=
            if hasNewAuthority ∧ 35 ≤ data.length then
              some (encodeBase58 (jsSlice data 3 32))
            else none
          { minimal "spl-token" "setAuthority" with
              source := accounts[0]?, authority := accounts[1]?,
              authorityType := some (authorityTypeName authorityTypeNum),
              newAuthority := newAuthority }
      else if instructionType = 9 then
        if accounts.length < 3 then
          minimal "spl-token" "close"
        else
          { minimal "spl-token" "close" with
              source := accounts[0]?, destination := accounts[1]?,
              authority := accounts[2]? }
      else
        minimal "spl-token" "unknown"

/-- Where the page-hook parser starts reading the message body: the skip
requires the first byte to be `≤ 127` AND the prefix to end strictly
inside the buffer; afterwards a second guard resets to 0 whenever the
offset lands at or past `length - 10` (a JS number, possibly negative). -/
def messageStart (bytes : List Nat) : Nat :=
  let offset : Nat :=
    match bytes.head? with
    | none => 0
    | some firstByte =>
      if firstByte ≤ 127 ∧ 1 + firstByte * 64 < bytes.length then
        1 + firstByte * 64
      else 0
  if (bytes.length : ℤ) - 10 ≤ (offset : ℤ) then 0 else offset

/-- The bounds-checked key-reading loop: `if (offset + 32 > length) break`. -/
def readKeys (bytes : List Nat) : Nat → Nat → List String × Nat
  | 0, o => ([], o)
  | n + 1, o =>
    if bytes.length < o + 32 then ([], o)
    else
      let k := encodeBase58 (jsSlice bytes o 32)
      let r := readKeys bytes n (o + 32)
      (k :: r.1, r.2)

/-- The guarded account-index loop: an index byte is pushed (and the
offset advanced) only while the offset is in range. -/
def readIndices (bytes : List Nat) : Nat → Nat → List Nat × Nat
  | 0, o => ([], o)
  | j + 1, o =>
    if o < bytes.length then
      let r := readIndices bytes j (o + 1)
      (bytes.getD o 0 :: r.1, r.2)
    else ([], o)

/-- Mutable state of the hook's per-instruction loop. -/
structure ParseState where
  offset : Nat
  instructions : List DecodedInstruction
  affected : List String
  deriving DecidableEq, Repr

/-- One iteration of the hook instruction loop; `if (offset >= length)
break` is modelled by leaving the state unchanged (the offset then stays
out of range, so every later iteration is also a no-op). -/
def parseStep (bytes : List Nat) (accountKeys : List String) (s : ParseState) :
    ParseState :=
  if bytes.length ≤ s.offset then s
  else
    let programIdIndex := bytes.getD s.offset 0
    let o1 := s.offset + 1
    let na := readCompactU16 bytes o1
    let o2 := o1 + na.2
    let ir := readIndices bytes na.1 o2
    let accountIndices := ir.1
    let o3 := ir.2
    let dl := readCompactU16 bytes o3
    let o4 := o3 + dl.2
    let data := jsSlice bytes o4 dl.1
    let o5 := o4 + dl.1
    let accounts := accountIndices.map (resolveIndex accountKeys)
    let programId := resolveIndex accountKeys programIdIndex
    let affected := accounts.foldl addUnique s.affected
    let decoded := decodeInstruction programId data accounts
    { offset := o5, instructions := s.instructions ++ [decoded],
      affected := affected }

/-- The hook's `for (let i = 0; i < numInstructions; i++)` loop. -/
def parseLoop (bytes : List Nat) (accountKeys : List String) :
    Nat → ParseState → ParseState
  | 0, s => s
  | n + 1, s => parseLoop bytes accountKeys n (parseStep bytes accountKeys s)

/-- Header phase of `analyzeSerializedTransaction`. -/
structure ParsedHeader where
  accountKeys : List String
  instructionsStart : Nat
  numInstructions : Nat
  deriving DecidableEq, Repr

/-- Prefix sniffing, 3 header bytes, account-count varint, bounds-checked
keys, 32-byte blockhash, instruction-count varint. -/
def parseHeader (bytes : List Nat) : ParsedHeader :=
  let o0 := messageStart bytes + 3
  let na := readCompactU16 bytes o0
  let kr := readKeys bytes na.1 (o0 + na.2)
  let o1 := kr.2 + 32
  let ni := readCompactU16 bytes o1
  { accountKeys := kr.1, instructionsStart := o1 + ni.2,
    numInstructions := ni.1 }

/-- Result record of `analyzeSerializedTransaction`. -/
structure AnalysisResult where
  instructions : List DecodedInstruction
  affectedAccounts : List String
  deriving DecidableEq, Repr

/-- `analyzeSerializedTransaction` of the page-context copy. -/
def analyzeSerializedTransaction (serializedTx : List Nat) : AnalysisResult :=
  let h := parseHeader serializedTx
  let final := parseLoop serializedTx h.accountKeys h.numInstructions
    { offset := h.instructionsStart, instructions := [], affected := [] }
  { instructions := final.instructions, affectedAccounts := final.affected }

/-- Hook rule 1: unlimited approval (same logic as the standalone copy). -/
def ruleUnlimitedApproval (spl : List DecodedInstruction) : List Reason :=
  collect (fun ix =>
    if ix.type == "approve" then
      match ix.amount with
      | some amount =>
        if UNLIMITED_THRESHOLD ≤ amount then
          [Reason.unlimitedApproval (truncateAddress ix.destination)]
        else []
      | none => []
    else []) spl

/-- Hook rule 2: authority transfer / revocation. -/
def ruleSetAuthority (spl : List DecodedInstruction) (userWallet : String) :
    List Reason :=
  collect (fun ix =>
    if ix.type == "setAuthority" then
      (if ix.authority == some userWallet && jsTruthy ix.newAuthority
          && ix.newAuthority != some userWallet then
        [Reason.authorityTransfer (jsOrString ix.authorityType "account")
          (truncateAddress ix.newAuthority)]
      else []) ++
      (if ix.authority == some userWallet && !jsTruthy ix.newAuthority then
        [Reason.authorityRevocation (jsOrString ix.authorityType "account")]
      else [])
    else []) spl

/-- Hook `tokenAccounts` set: `if (ix.source) add(ix.source)`. -/
def tokenAccounts (spl : List DecodedInstruction) : List String :=
  spl.foldl (fun set ix =>
    match ix.source with
    | some s => if s = "" then set else addUnique set s
    | none => set) []

/-- Hook rule 3: three or more distinct source accounts. -/
def ruleMultiAccount (spl : List DecodedInstruction) : List Reason :=
  if 3 ≤ (tokenAccounts spl).length then
    [Reason.multiAccount (tokenAccounts spl).length]
  else []

/-- Hook rule 4: unknown program (truthy `programId`, not in the
allow-list, optional `accounts` list containing the user). -/
def ruleUnknownProgram (instructions : List DecodedInstruction)
    (userWallet : String) : List Reason :=
  collect (fun ix =>
    if ix.program == "unknown" && jsTruthy ix.programId then
      match ix.programId, ix.accounts with
      | some pid, accs =>
        if pid ∉ SAFE_PROGRAM_IDS ∧ userWallet ∈ accs.getD [] then
          [Reason.unknownProgram (truncateAddress (some pid))]
        else []
      | none, _ => []
    else []) instructions

/-- Hook rule 5: drain pattern. -/
def ruleDrainPattern (spl : List DecodedInstruction) (userWallet : String) :
    List Reason :=
  let hasApprove := spl.any (fun ix => ix.type == "approve")
  let hasSetAuth := spl.any (fun ix => ix.type == "setAuthority")
  let hasTransferOrClose := spl.any
    (fun ix => ix.type == "transfer" || ix.type == "close")
  if (hasApprove || hasSetAuth) && hasTransferOrClose then
    let suspicious := spl.any (fun ix =>
      (ix.type == "transfer" || ix.type == "close")
        && jsTruthy ix.destination && ix.destination != some userWallet)
    if suspicious then [Reason.drainPattern] else []
  else []

/-- Hook rule 6: suspicious close.  There is no large-transfer rule in
the page-context copy. -/
def ruleSuspiciousClose (spl : List DecodedInstruction) (userWallet : String) :
    List Reason :=
  collect (fun ix =>
    if ix.type == "close" && jsTruthy ix.destination
        && ix.destination != some userWallet then
      [Reason.suspiciousClose (truncateAddress ix.destination)]
    else []) spl

/-- `assessRisk` of the page-context copy: six rules, in source order.
The `affectedAccounts` parameter is accepted and, as in the source, never
used. -/
def assessRisk (instructions : List DecodedInstruction)
    (_affectedAccounts : List String) (userWallet : String) : RiskAssessment :=
  let spl := instructions.filter (fun ix => ix.program == "spl-token")
  let reasons :=
    ruleUnlimitedApproval spl ++
    ruleSetAuthority spl userWallet ++
    ruleMultiAccount spl ++
    ruleUnknownProgram instructions userWallet ++
    ruleDrainPattern spl userWallet ++
    ruleSuspiciousClose spl userWallet
  { isHighRisk := !reasons.isEmpty, reasons := reasons }

end Hook

/-! ### Test fixtures used in boundary statements -/

/-- Fixture: a fully-populated Approve operation with the given amount. -/
def Content.approveFixture (amount : Nat) : Content.DecodedInstruction :=
  { program := "spl-token", type := "approve", source := some "src",
    destination := some "delegate", authority := some "owner",
    newAuthority := none, authorityType := none, amount := some amount,
    mint := none, raw := none }

/-- Fixture: a `TransactionAnalysis` holding exactly the given operations. -/
def Content.analysisOf (l : List Content.DecodedInstruction) :
    Content.TransactionAnalysis :=
  { instructions := l, affectedAccounts := [],
    splTokenInstructions := l.filter (fun ix => ix.program == "spl-token") }

/-- Fixture: a fully-populated SetAuthority operation on token account
`s` (no new authority — a revocation). -/
def Content.setAuthFixture (s : String) : Content.DecodedInstruction :=
  { program := "spl-token", type := "setAuthority", source := some s,
    destination := none, authority := some "owner", newAuthority := none,
    authorityType := some "AccountOwner", amount := none, mint := none,
    raw := none }

/-- Hook fixture: a SetAuthority operation on token account `s`. -/
def Hook.setAuthFixture (s : String) : Hook.DecodedInstruction :=
  { program := "spl-token", type := "setAuthority", source := some s,
    destination := none, authority := some "owner", newAuthority := none,
    authorityType := some "AccountOwner", amount := none, accounts := none,
    programId := none }

/-- Fixture: a fully-populated Transfer of 5 raw units to `dest`. -/
def Content.transferFixture (dest : String) : Content.DecodedInstruction :=
  { program := "spl-token", type := "transfer", source := some "src",
    destination := some dest, authority := some "owner", newAuthority := none,
    authorityType := none, amount := some 5, mint := none, raw := none }

/-- Recognizer for the two findings emitted by rule 2. -/
def Reason.isAuthorityFinding : Reason → Bool
  | .authorityTransfer _ _ => true
  | .authorityRevocation _ => true
  | _ => false

/-! ### C5: large transfers -/

/-- The 32 raw bytes whose base58 rendering is `SPL_TOKEN_PROGRAM_ID`. -/
def splTokenKeyBytes : List Nat :=
  [6, 221, 246, 225, 215, 101, 161, 147, 217, 203, 225, 70, 206, 235, 121, 172,
   28, 180, 133, 237, 95, 91, 55, 145, 58, 140, 245, 133, 126, 255, 0, 169]

/-- A concrete wire transaction: header bytes `[200,0,0]` (first byte 200
keeps both parsers at offset 0), four 32-byte account keys (source,
destination, authority, token program), a blockhash, and one Transfer
instruction of `10^12` raw units. -/
def largeTransferTxBytes : List Nat :=
  [200, 0, 0, 4] ++ List.replicate 32 1 ++ List.replicate 32 2
    ++ List.replicate 32 3 ++ splTokenKeyBytes ++ List.replicate 32 9
    ++ [1, 3, 3, 0, 1, 2, 9, 3, 0x00, 0x10, 0xA5, 0xD4, 0xE8, 0, 0, 0]

/-- The single decoded operation of `largeTransferTxBytes`. -/
def Content.largeTransferOp : Content.DecodedInstruction :=
  ((Content.analyzeTransaction largeTransferTxBytes).splTokenInstructions).getD 0
    (Content.minimalWithRaw "none" "none" "none" [] [])

/-- Hook fixture: a fully-populated Transfer of `10^12` raw units to a
third-party destination. -/
def Hook.largeTransferFixture : Hook.DecodedInstruction :=
  { program := "spl-token", type := "transfer", source := some "src",
    destination := some "dest", authority := some "owner", newAuthority := none,
    authorityType := none, amount := some 1000000000000, accounts := none,
    programId := none }

/-! ### C1: total parse and the instruction-count bound -/

/-- Modelled from the spec: an upper bound on the number of instructions a
byte sequence could possibly encode.  The wire format spends at least
three bytes per instruction (one program-index byte, one account-count
varint byte, one data-length varint byte), so a buffer of `n` bytes can
encode at most `n / 3` instructions.  The repository contains no such
bound; this definition only formalizes the claim's phrase "the number of
instructions the byte sequence could possibly encode". -/
def maxEncodableInstructions (bytes : List Nat) : Nat :=
  bytes.length / 3

/-- A 40-byte buffer whose instruction-count varint declares 100
instructions: 3 header bytes, a zero account count, 32 blockhash bytes,
then the count byte 100 followed by two stray bytes. -/
def overdeclaredTxBytes : List Nat :=
  [0, 9, 9, 9, 0] ++ List.replicate 32 7 ++ [100, 0, 0]

/-! ### C6: the signature-prefix heuristic -/

/-- Modelled from the spec (§4.2 step 1), the claimed prefix rule: "if
the first byte, interpreted as a count, is ≤ 127 and `1 + count*64` does
not exceed the buffer length, treat that span as signatures and advance
past it; otherwise assume the buffer starts directly at the message
body."  Defined for comparison with the two parsers' actual start
offsets. -/
def claimedMessageStart (bytes : List Nat) : Nat :=
  match bytes.head? with
  | none => 0
  | some c => if c ≤ 127 ∧ 1 + c * 64 ≤ bytes.length then 1 + c * 64 else 0

/-- Modelled from the spec: the little-endian base-128 varint encoder for
the wire format ("a 1-3 byte little-endian, 7-bits-per-byte integer
encoding with a continuation bit").  The repository only decodes; this
reference encoder exists to state the round-trip claim. -/
def encodeCompactU16 (v : Nat) : List Nat :=
  if v < 128 then [v]
  else if v < 16384 then [v % 128 + 128, v / 128]
  else [v % 128 + 128, (v / 128) % 128 + 128, v / 16384]

/-! ### General lemmas about the shared helpers -/

theorem String.length_zero_eq_empty {s : String} (h : s.length = 0) : s = "" := by
  cases s with
  | mk data =>
    cases data with
    | nil => rfl
    | cons c r => simp [String.length] at h

theorem append_ne_empty_left (s t : String) (h : s ≠ "") : s ++ t ≠ "" := by
  intro he
  apply h
  have hl := congrArg String.length he
  have h0 : ("" : String).length = 0 := rfl
  rw [String.length_append, h0] at hl
  exact String.length_zero_eq_empty (by omega)

theorem resolveIndex_ne_empty (keys : List String) (i : Nat) :
    resolveIndex keys i ≠ "" := by
  unfold resolveIndex
  cases h : keys[i]? with
  | none => exact append_ne_empty_left _ _ (by decide)
  | some s =>
    by_cases hs : s = "" <;> simp [hs]
    exact append_ne_empty_left _ _ (by decide)

theorem mem_collect {α β : Type} {f : α → List β} {b : β} {l : List α} :
    b ∈ collect f l ↔ ∃ a ∈ l, b ∈ f a := by
  induction l with
  | nil => simp [collect]
  | cons x r ih => simp [collect, List.mem_append, ih]

theorem count_collect_eq_zero {α β : Type} [DecidableEq β] {f : α → List β}
    {b : β} {l : List α} (h : ∀ a ∈ l, b ∉ f a) : (collect f l).count b = 0 := by
  rw [List.count_eq_zero]
  intro hb
  obtain ⟨a, ha, hfa⟩ := mem_collect.mp hb
  exact h a ha hfa

/-! ### Constructor shapes of the findings each rule can emit -/

theorem Content.shape_ruleUnlimitedApproval {spl : List Content.DecodedInstruction}
    {r : Reason} (h : r ∈ Content.ruleUnlimitedApproval spl) :
    ∃ d, r = Reason.unlimitedApproval d := by
  obtain ⟨ix, -, hm⟩ := mem_collect.mp h
  split at hm
  · split at hm
    · split at hm
      · simp at hm
        exact ⟨_, hm⟩
      · simp at hm
    · simp at hm
  · simp at hm

theorem Content.shape_ruleSetAuthority {spl : List Content.DecodedInstruction}
    {u : String} {r : Reason} (h : r ∈ Content.ruleSetAuthority spl u) :
    (∃ k n, r = Reason.authorityTransfer k n) ∨
      (∃ k, r = Reason.authorityRevocation k) := by
  obtain ⟨ix, -, hm⟩ := mem_collect.mp h
  split at hm
  · rcases List.mem_append.mp hm with h1 | h1
    · split at h1
      · simp at h1
        exact Or.inl ⟨_, _, h1⟩
      · simp at h1
    · split at h1
      · simp at h1
        exact Or.inr ⟨_, h1⟩
      · simp at h1
  · simp at hm

theorem Content.shape_ruleMultiAccount {spl : List Content.DecodedInstruction}
    {r : Reason} (h : r ∈ Content.ruleMultiAccount spl) :
    ∃ n, r = Reason.multiAccount n := by
  unfold Content.ruleMultiAccount at h
  split at h
  · simp at h
    exact ⟨_, h⟩
  · simp at h

theorem Content.shape_ruleUnknownProgram {l : List Content.DecodedInstruction}
    {u : String} {r : Reason} (h : r ∈ Content.ruleUnknownProgram l u) :
    ∃ p, r = Reason.unknownProgram p := by
  obtain ⟨ix, -, hm⟩ := mem_collect.mp h
  split at hm
  · split at hm
    · split at hm
      · simp at hm
        exact ⟨_, hm⟩
      · simp at hm
    · simp at hm
  · simp at hm

theorem Content.shape_ruleDrainPattern {spl : List Content.DecodedInstruction}
    {u : String} {r : Reason} (h : r ∈ Content.ruleDrainPattern spl u) :
    r = Reason.drainPattern := by
  simp only [Content.ruleDrainPattern] at h
  split at h
  · split at h <;> simp at h
    exact h
  · simp at h

theorem Content.shape_ruleSuspiciousClose {spl : List Content.DecodedInstruction}
    {u : String} {r : Reason} (h : r ∈ Content.ruleSuspiciousClose spl u) :
    ∃ d, r = Reason.suspiciousClose d := by
  obtain ⟨ix, -, hm⟩ := mem_collect.mp h
  split at hm
  · simp at hm
    exact ⟨_, hm⟩
  · simp at hm

theorem Content.shape_ruleLargeTransfer {spl : List Content.DecodedInstruction}
    {u : String} {r : Reason} (h : r ∈ Content.ruleLargeTransfer spl u) :
    ∃ a d, r = Reason.largeTransfer a d := by
  obtain ⟨ix, -, hm⟩ := mem_collect.mp h
  split at hm
  · split at hm
    · split at hm
      · split at hm
        · simp at hm
          exact ⟨_, _, hm⟩
        · simp at hm
      · simp at hm
    · simp at hm
  · simp at hm

theorem Content.mem_assessRisk_reasons {a : Content.TransactionAnalysis}
    {u : String} {r : Reason} :
    r ∈ (Content.assessRisk a u).reasons ↔
      r ∈ Content.ruleUnlimitedApproval a.splTokenInstructions ∨
      r ∈ Content.ruleSetAuthority a.splTokenInstructions u ∨
      r ∈ Content.ruleMultiAccount a.splTokenInstructions ∨
      r ∈ Content.ruleUnknownProgram a.instructions u ∨
      r ∈ Content.ruleDrainPattern a.splTokenInstructions u ∨
      r ∈ Content.ruleSuspiciousClose a.splTokenInstructions u ∨
      r ∈ Content.ruleLargeTransfer a.splTokenInstructions u := by
  simp [Content.assessRisk, List.mem_append, or_assoc]

theorem Hook.shape_ruleUnlimitedApprovalH {spl : List Hook.DecodedInstruction}
    {r : Reason} (h : r ∈ Hook.ruleUnlimitedApproval spl) :
    ∃ d, r = Reason.unlimitedApproval d := by
  obtain ⟨ix, -, hm⟩ := mem_collect.mp h
  split at hm
  · split at hm
    · split at hm
      · simp at hm
        exact ⟨_, hm⟩
      · simp at hm
    · simp at hm
  · simp at hm

theorem Hook.shape_ruleSetAuthorityH {spl : List Hook.DecodedInstruction}
    {u : String} {r : Reason} (h : r ∈ Hook.ruleSetAuthority spl u) :
    (∃ k n, r = Reason.authorityTransfer k n) ∨
      (∃ k, r = Reason.authorityRevocation k) := by
  obtain ⟨ix, -, hm⟩ := mem_collect.mp h
  split at hm
  · rcases List.mem_append.mp hm with h1 | h1
    · split at h1
      · simp at h1
        exact Or.inl ⟨_, _, h1⟩
      · simp at h1
    · split at h1
      · simp at h1
        exact Or.inr ⟨_, h1⟩
      · simp at h1
  · simp at hm

theorem Hook.shape_ruleMultiAccountH {spl : List Hook.DecodedInstruction}
    {r : Reason} (h : r ∈ Hook.ruleMultiAccount spl) :
    ∃ n, r = Reason.multiAccount n := by
  unfold Hook.ruleMultiAccount at h
  split at h
  · simp at h
    exact ⟨_, h⟩
  · simp at h

theorem Hook.shape_ruleUnknownProgramH {l : List Hook.DecodedInstruction}
    {u : String} {r : Reason} (h : r ∈ Hook.ruleUnknownProgram l u) :
    ∃ p, r = Reason.unknownProgram p := by
  obtain ⟨ix, -, hm⟩ := mem_collect.mp h
  split at hm
  · split at hm
    · split at hm
      · simp at hm
        exact ⟨_, hm⟩
      · simp at hm
    · simp at hm
  · simp at hm

theorem Hook.shape_ruleDrainPatternH {spl : List Hook.DecodedInstruction}
    {u : String} {r : Reason} (h : r ∈ Hook.ruleDrainPattern spl u) :
    r = Reason.drainPattern := by
  simp only [Hook.ruleDrainPattern] at h
  split at h
  · split at h <;> simp at h
    exact h
  · simp at h

theorem Hook.shape_ruleSuspiciousCloseH {spl : List Hook.DecodedInstruction}
    {u : String} {r : Reason} (h : r ∈ Hook.ruleSuspiciousClose spl u) :
    ∃ d, r = Reason.suspiciousClose d := by
  obtain ⟨ix, -, hm⟩ := mem_collect.mp h
  split at hm
  · simp at hm
    exact ⟨_, hm⟩
  · simp at hm

theorem Hook.mem_assessRisk_reasonsH {l : List Hook.DecodedInstruction}
    {aff : List String} {u : String} {r : Reason} :
    r ∈ (Hook.assessRisk l aff u).reasons ↔
      (r ∈ Hook.ruleUnlimitedApproval (l.filter (fun ix => ix.program == "spl-token")) ∨
       r ∈ Hook.ruleSetAuthority (l.filter (fun ix => ix.program == "spl-token")) u ∨
       r ∈ Hook.ruleMultiAccount (l.filter (fun ix => ix.program == "spl-token")) ∨
       r ∈ Hook.ruleUnknownProgram l u ∨
       r ∈ Hook.ruleDrainPattern (l.filter (fun ix => ix.program == "spl-token")) u ∨
       r ∈ Hook.ruleSuspiciousClose (l.filter (fun ix => ix.program == "spl-token")) u) := by
  simp [Hook.assessRisk, List.mem_append, or_assoc]

/-! ### Parser invariants: resolved account strings are never empty -/

theorem getElem?_ne_some_empty {l : List String} (h : ∀ a ∈ l, a ≠ "") (i : Nat) :
    l[i]? ≠ some "" := by
  intro hc
  exact h "" (List.getElem?_mem hc) rfl

theorem Content.resolveAccount_ne_empty (keys : List String) (idx : Option Nat) :
    Content.resolveAccount keys idx ≠ "" := by
  cases idx with
  | none =>
    simp only [Content.resolveAccount]
    decide
  | some i =>
    simpa only [Content.resolveAccount] using resolveIndex_ne_empty keys i

theorem Content.decode_fields_ne_empty (pid : String) (data : List Nat)
    (accounts : List String) (hacc : ∀ a ∈ accounts, a ≠ "") :
    (Content.decodeInstruction pid data accounts).source ≠ some "" ∧
    (Content.decodeInstruction pid data accounts).destination ≠ some "" ∧
    (Content.decodeInstruction pid data accounts).authority ≠ some "" := by
  unfold Content.decodeInstruction
  repeat' split
  all_goals
    refine ⟨?_, ?_, ?_⟩ <;>
      first
        | exact getElem?_ne_some_empty hacc _
        | simp [Content.minimalWithRaw]

theorem Content.parseLoop_invariant (bytes : List Nat) (keys : List String)
    (P : Content.DecodedInstruction → Prop)
    (hP : ∀ pid data accounts, (∀ a ∈ accounts, a ≠ "") →
      P (Content.decodeInstruction pid data accounts)) :
    ∀ n s, (∀ ix ∈ s.instructions, P ix) →
      ∀ ix ∈ (Content.parseLoop bytes keys n s).instructions, P ix := by
  intro n
  induction n with
  | zero => intro s hs; exact hs
  | succ m ih =>
    intro s hs
    apply ih
    intro ix hix
    simp only [Content.parseStep] at hix
    rw [List.mem_append] at hix
    rcases hix with h | h
    · exact hs ix h
    · simp at h
      subst h
      apply hP
      intro a ha
      obtain ⟨oi, -, rfl⟩ := List.mem_map.mp ha
      apply Content.resolveAccount_ne_empty

theorem Content.analyze_fields_ne_empty (bytes : List Nat) :
    ∀ ix ∈ (Content.analyzeTransaction bytes).instructions,
      ix.source ≠ some "" ∧ ix.destination ≠ some "" ∧ ix.authority ≠ some "" := by
  unfold Content.analyzeTransaction
  split
  · simp
  · intro ix hix
    exact Content.parseLoop_invariant bytes (Content.parseHeader bytes).accountKeys
      (fun ix => ix.source ≠ some "" ∧ ix.destination ≠ some "" ∧ ix.authority ≠ some "")
      (fun pid data accounts hacc => Content.decode_fields_ne_empty pid data accounts hacc)
      (Content.parseHeader bytes).numInstructions
      { offset := (Content.parseHeader bytes).instructionsStart,
        instructions := [], affected := [] }
      (by simp) ix hix

theorem Content.spl_eq_filter (bytes : List Nat) :
    (Content.analyzeTransaction bytes).splTokenInstructions =
      (Content.analyzeTransaction bytes).instructions.filter
        (fun ix => ix.program == "spl-token") := by
  unfold Content.analyzeTransaction
  split <;> rfl

theorem Content.analyze_spl_fields_ne_empty (bytes : List Nat) :
    ∀ ix ∈ (Content.analyzeTransaction bytes).splTokenInstructions,
      ix.source ≠ some "" ∧ ix.destination ≠ some "" ∧ ix.authority ≠ some "" := by
  intro ix hix
  rw [Content.spl_eq_filter] at hix
  exact Content.analyze_fields_ne_empty bytes ix (List.mem_filter.mp hix).1

theorem Hook.decode_fields_ne_emptyH (pid : String) (data : List Nat)
    (accounts : List String) (hacc : ∀ a ∈ accounts, a ≠ "") :
    (Hook.decodeInstruction pid data accounts).source ≠ some "" ∧
    (Hook.decodeInstruction pid data accounts).destination ≠ some "" ∧
    (Hook.decodeInstruction pid data accounts).authority ≠ some "" := by
  unfold Hook.decodeInstruction
  repeat' split
  all_goals refine ⟨?_, ?_, ?_⟩
  all_goals try (rcases ‹_ ∨ _› with rfl | rfl)
  all_goals norm_num
  all_goals repeat' split
  all_goals
    first
      | exact getElem?_ne_some_empty hacc _
      | simp_all [Hook.minimal]

theorem Hook.parseLoop_invariantH (bytes : List Nat) (keys : List String)
    (P : Hook.DecodedInstruction → Prop)
    (hP : ∀ pid data accounts, (∀ a ∈ accounts, a ≠ "") →
      P (Hook.decodeInstruction pid data accounts)) :
    ∀ n s, (∀ ix ∈ s.instructions, P ix) →
      ∀ ix ∈ (Hook.parseLoop bytes keys n s).instructions, P ix := by
  intro n
  induction n with
  | zero => intro s hs; exact hs
  | succ m ih =>
    intro s hs
    apply ih
    intro ix hix
    simp only [Hook.parseStep] at hix
    split at hix
    · exact hs ix hix
    · rw [List.mem_append] at hix
      rcases hix with h | h
      · exact hs ix h
      · simp at h
        subst h
        apply hP
        intro a ha
        obtain ⟨oi, -, rfl⟩ := List.mem_map.mp ha
        apply resolveIndex_ne_empty

theorem Hook.analyze_fields_ne_emptyH (bytes : List Nat) :
    ∀ ix ∈ (Hook.analyzeSerializedTransaction bytes).instructions,
      ix.source ≠ some "" ∧ ix.destination ≠ some "" ∧ ix.authority ≠ some "" := by
  intro ix hix
  exact Hook.parseLoop_invariantH bytes (Hook.parseHeader bytes).accountKeys
    (fun ix => ix.source ≠ some "" ∧ ix.destination ≠ some "" ∧ ix.authority ≠ some "")
    (fun pid data accounts hacc => Hook.decode_fields_ne_emptyH pid data accounts hacc)
    (Hook.parseHeader bytes).numInstructions
    { offset := (Hook.parseHeader bytes).instructionsStart,
      instructions := [], affected := [] }
    (by simp) ix hix

/-! ### Instruction-count bounds of the two parsers -/

theorem Content.parseLoop_length (bytes : List Nat) (keys : List String) :
    ∀ n s, (Content.parseLoop bytes keys n s).instructions.length =
      s.instructions.length + n := by
  intro n
  induction n with
  | zero => intro s; rfl
  | succ m ih =>
    intro s
    rw [Content.parseLoop, ih]
    simp only [Content.parseStep, List.length_append, List.length_singleton]
    omega

theorem Hook.parseLoop_length_le (bytes : List Nat) (keys : List String) :
    ∀ n s, (Hook.parseLoop bytes keys n s).instructions.length ≤
      s.instructions.length + n := by
  intro n
  induction n with
  | zero =>
    intro s
    simp [Hook.parseLoop]
  | succ m ih =>
    intro s
    rw [Hook.parseLoop]
    refine le_trans (ih _) ?_
    simp only [Hook.parseStep]
    split
    · omega
    · simp only [List.length_append, List.length_singleton]
      omega

/-- C2.  For every decoded Approve whose amount is at least
`0.999 × (2^64 − 1)` (stated exactly: `999·(2^64−1) ≤ 1000·amount`), both
rule engines emit an unlimited-approval finding naming the delegate
(the decoded `destination` of an approve); an Approve of exactly
`UNLIMITED_THRESHOLD − 1` yields no finding at all, and one of exactly
`UNLIMITED_THRESHOLD` yields exactly the unlimited-approval finding. -/
theorem C2_unlimited_approval_threshold :
    (∀ (a : Content.TransactionAnalysis) (u : String)
        (ix : Content.DecodedInstruction) (amt : Nat),
        ix ∈ a.splTokenInstructions → ix.type = "approve" →
        ix.amount = some amt → 999 * (2 ^ 64 - 1) ≤ 1000 * amt →
        Reason.unlimitedApproval (truncateAddress ix.destination) ∈
          (Content.assessRisk a u).reasons)
    ∧ (∀ (l : List Hook.DecodedInstruction) (aff : List String) (u : String)
        (ix : Hook.DecodedInstruction) (amt : Nat),
        ix ∈ l → ix.program = "spl-token" → ix.type = "approve" →
        ix.amount = some amt → 999 * (2 ^ 64 - 1) ≤ 1000 * amt →
        Reason.unlimitedApproval (truncateAddress ix.destination) ∈
          (Hook.assessRisk l aff u).reasons)
    ∧ (Content.assessRisk (Content.analysisOf
        [Content.approveFixture (UNLIMITED_THRESHOLD - 1)]) "user").reasons = []
    ∧ (Content.assessRisk (Content.analysisOf
        [Content.approveFixture UNLIMITED_THRESHOLD]) "user").reasons =
        [Reason.unlimitedApproval "delegate"] := by
  have hth : ∀ amt : Nat, 999 * (2 ^ 64 - 1) ≤ 1000 * amt →
      UNLIMITED_THRESHOLD ≤ amt := by
    intro amt h
    have h1 : UNLIMITED_THRESHOLD * 1000 ≤ (2 ^ 64 - 1) * 999 := by
      unfold UNLIMITED_THRESHOLD MAX_U64
      exact Nat.div_mul_le_self _ _
    refine Nat.le_of_mul_le_mul_right ?_ (show 0 < 1000 by norm_num)
    calc UNLIMITED_THRESHOLD * 1000 ≤ (2 ^ 64 - 1) * 999 := h1
      _ = 999 * (2 ^ 64 - 1) := Nat.mul_comm _ _
      _ ≤ 1000 * amt := h
      _ = amt * 1000 := Nat.mul_comm _ _
  refine ⟨?_, ?_, by decide, by decide⟩
  · intro a u ix amt hmem htype hamt hge
    apply Content.mem_assessRisk_reasons.mpr
    left
    apply mem_collect.mpr
    exact ⟨ix, hmem, by simp [htype, hamt, hth amt hge]⟩
  · intro l aff u ix amt hmem hprog htype hamt hge
    apply Hook.mem_assessRisk_reasonsH.mpr
    left
    apply mem_collect.mpr
    refine ⟨ix, List.mem_filter.mpr ⟨hmem, by simp [hprog]⟩, ?_⟩
    simp [htype, hamt, hth amt hge]

/-- Witness for C2 at a concrete input: an Approve of the full `2^64 − 1`
triggers the unlimited-approval finding for its delegate. -/
theorem C2_witness :
    Reason.unlimitedApproval "delegate" ∈
      (Content.assessRisk
        (Content.analysisOf [Content.approveFixture (2 ^ 64 - 1)]) "user").reasons := by
  have h := C2_unlimited_approval_threshold.1
    (Content.analysisOf [Content.approveFixture (2 ^ 64 - 1)]) "user"
    (Content.approveFixture (2 ^ 64 - 1)) (2 ^ 64 - 1)
    (by decide) (by decide) (by decide) (by decide)
  simpa [Content.approveFixture, truncateAddress] using h

/-- C10.  The multi-account rule counts the `source` field of every
token-program operation, and the decoder stores the operated-on account
(`accounts[0]`) in `source` for SetAuthority and CloseAccount as well;
consequently three SetAuthority operations on three distinct accounts and
no transfers trigger the multi-account finding, in both rule engines. -/
theorem C10_multi_account_sources :
    (∀ (data : List Nat) (accounts : List String),
        data.head? = some 6 → ¬(data.length < 3 ∨ accounts.length < 2) →
        (Content.decodeInstruction SPL_TOKEN_PROGRAM_ID data accounts).source =
          accounts[0]?)
    ∧ (∀ (data : List Nat) (accounts : List String),
        data.head? = some 9 → ¬accounts.length < 3 →
        (Content.decodeInstruction SPL_TOKEN_PROGRAM_ID data accounts).source =
          accounts[0]?)
    ∧ (∀ (a : Content.TransactionAnalysis) (u : String)
        (i1 i2 i3 : Content.DecodedInstruction) (x y z : String),
        a.splTokenInstructions = [i1, i2, i3] →
        i1.source = some x → i2.source = some y → i3.source = some z →
        x ≠ y → x ≠ z → y ≠ z → x ≠ "" → y ≠ "" → z ≠ "" →
        Reason.multiAccount 3 ∈ (Content.assessRisk a u).reasons)
    ∧ (∀ (l : List Hook.DecodedInstruction) (aff : List String) (u : String)
        (i1 i2 i3 : Hook.DecodedInstruction) (x y z : String),
        l.filter (fun ix => ix.program == "spl-token") = [i1, i2, i3] →
        i1.source = some x → i2.source = some y → i3.source = some z →
        x ≠ y → x ≠ z → y ≠ z → x ≠ "" → y ≠ "" → z ≠ "" →
        Reason.multiAccount 3 ∈ (Hook.assessRisk l aff u).reasons) := by
  refine ⟨?_, ?_, ?_, ?_⟩
  · intro data accounts hhead hlen
    simp [Content.decodeInstruction, hhead, hlen]
  · intro data accounts hhead hlen
    simp [Content.decodeInstruction, hhead, hlen]
  · intro a u i1 i2 i3 x y z hspl hs1 hs2 hs3 hxy hxz hyz hxe hye hze
    have hset : Content.affectedTokenAccounts a.splTokenInstructions = [x, y, z] := by
      rw [hspl]
      simp only [Content.affectedTokenAccounts, List.foldl, hs1, hs2, hs3]
      simp [addUnique, hxe, hye, hze, hxy, hxz, hyz,
        Ne.symm hxy, Ne.symm hxz, Ne.symm hyz]
    apply Content.mem_assessRisk_reasons.mpr
    right; right; left
    unfold Content.ruleMultiAccount
    rw [hset]
    simp [MULTI_ACCOUNT_THRESHOLD]
  · intro l aff u i1 i2 i3 x y z hspl hs1 hs2 hs3 hxy hxz hyz hxe hye hze
    have hset : Hook.tokenAccounts
        (l.filter (fun ix => ix.program == "spl-token")) = [x, y, z] := by
      rw [hspl]
      simp only [Hook.tokenAccounts, List.foldl, hs1, hs2, hs3]
      simp [addUnique, hxe, hye, hze, hxy, hxz, hyz,
        Ne.symm hxy, Ne.symm hxz, Ne.symm hyz]
    apply Hook.mem_assessRisk_reasonsH.mpr
    right; right; left
    unfold Hook.ruleMultiAccount
    rw [hset]
    simp

/-- Witness for C10 at a concrete input: three revocation-style
SetAuthority operations on accounts "a", "b", "c" trigger the
multi-account finding in both engines. -/
theorem C10_witness :
    Reason.multiAccount 3 ∈
      (Content.assessRisk (Content.analysisOf
        [Content.setAuthFixture "a", Content.setAuthFixture "b",
         Content.setAuthFixture "c"]) "user").reasons ∧
    Reason.multiAccount 3 ∈
      (Hook.assessRisk
        [Hook.setAuthFixture "a", Hook.setAuthFixture "b",
         Hook.setAuthFixture "c"] [] "user").reasons := by
  constructor
  · exact C10_multi_account_sources.2.2.1
      (Content.analysisOf [Content.setAuthFixture "a", Content.setAuthFixture "b",
        Content.setAuthFixture "c"]) "user"
      (Content.setAuthFixture "a") (Content.setAuthFixture "b")
      (Content.setAuthFixture "c") "a" "b" "c"
      (by decide) (by decide) (by decide) (by decide) (by decide) (by decide)
      (by decide) (by decide) (by decide) (by decide)
  · exact C10_multi_account_sources.2.2.2
      [Hook.setAuthFixture "a", Hook.setAuthFixture "b", Hook.setAuthFixture "c"]
      [] "user" (Hook.setAuthFixture "a") (Hook.setAuthFixture "b")
      (Hook.setAuthFixture "c") "a" "b" "c"
      (by decide) (by decide) (by decide) (by decide) (by decide) (by decide)
      (by decide) (by decide) (by decide) (by decide)

/-! ### Drain-pattern rule: exact firing condition and multiplicity -/

theorem Content.mem_ruleDrainPattern_iff (spl : List Content.DecodedInstruction)
    (u : String) :
    Reason.drainPattern ∈ Content.ruleDrainPattern spl u ↔
      ((∃ ix ∈ spl, ix.type = "approve" ∨ ix.type = "setAuthority") ∧
       (∃ ix ∈ spl, (ix.type = "transfer" ∨ ix.type = "close") ∧
         jsTruthy ix.destination = true ∧ ix.destination ≠ some u)) := by
  constructor
  · intro h
    simp only [Content.ruleDrainPattern] at h
    split at h
    · rename_i h1
      split at h
      · rename_i h2
        rw [Bool.and_eq_true, Bool.or_eq_true] at h1
        rw [List.any_eq_true] at h2
        obtain ⟨ixt, hixt, hf⟩ := h2
        simp only [Bool.or_eq_true, Bool.and_eq_true, beq_iff_eq, bne_iff_ne] at hf
        refine ⟨?_, ixt, hixt, ?_⟩
        · rcases h1.1 with ha | hs
          · rw [List.any_eq_true] at ha
            obtain ⟨ix, hix, ht⟩ := ha
            exact ⟨ix, hix, Or.inl (by simpa using ht)⟩
          · rw [List.any_eq_true] at hs
            obtain ⟨ix, hix, ht⟩ := hs
            exact ⟨ix, hix, Or.inr (by simpa using ht)⟩
        · rcases hf with ⟨⟨ht, htr⟩, hne⟩ | ⟨⟨ht, htr⟩, hne⟩
          · exact ⟨Or.inl ht, htr, hne⟩
          · exact ⟨Or.inr ht, htr, hne⟩
      · simp at h
    · simp at h
  · rintro ⟨⟨ixa, hixa, hta⟩, ixt, hixt, htt, htruthy, hne⟩
    simp only [Content.ruleDrainPattern]
    have hTC : (spl.any fun ix => ix.type == "transfer" || ix.type == "close")
        = true := by
      rw [List.any_eq_true]
      exact ⟨ixt, hixt, by rcases htt with h | h <;> simp [h]⟩
    have hAS : ((spl.any fun ix => ix.type == "approve") ||
        (spl.any fun ix => ix.type == "setAuthority")) = true := by
      rw [Bool.or_eq_true, List.any_eq_true, List.any_eq_true]
      rcases hta with h | h
      · exact Or.inl ⟨ixa, hixa, by simp [h]⟩
      · exact Or.inr ⟨ixa, hixa, by simp [h]⟩
    have hsusp : (spl.any fun ix =>
        (ix.type == "transfer" && jsTruthy ix.destination
          && ix.destination != some u) ||
        (ix.type == "close" && jsTruthy ix.destination
          && ix.destination != some u)) = true := by
      rw [List.any_eq_true]
      refine ⟨ixt, hixt, ?_⟩
      rcases htt with h | h <;>
        simp [h, htruthy, bne_iff_ne, hne]
    rw [if_pos (by rw [Bool.and_eq_true]; exact ⟨hAS, hTC⟩), if_pos hsusp]
    simp

theorem Hook.mem_ruleDrainPattern_iffH (spl : List Hook.DecodedInstruction)
    (u : String) :
    Reason.drainPattern ∈ Hook.ruleDrainPattern spl u ↔
      ((∃ ix ∈ spl, ix.type = "approve" ∨ ix.type = "setAuthority") ∧
       (∃ ix ∈ spl, (ix.type = "transfer" ∨ ix.type = "close") ∧
         jsTruthy ix.destination = true ∧ ix.destination ≠ some u)) := by
  constructor
  · intro h
    simp only [Hook.ruleDrainPattern] at h
    split at h
    · rename_i h1
      split at h
      · rename_i h2
        rw [Bool.and_eq_true, Bool.or_eq_true] at h1
        rw [List.any_eq_true] at h2
        obtain ⟨ixt, hixt, hf⟩ := h2
        simp only [Bool.and_eq_true, Bool.or_eq_true, beq_iff_eq, bne_iff_ne] at hf
        refine ⟨?_, ixt, hixt, ?_⟩
        · rcases h1.1 with ha | hs
          · rw [List.any_eq_true] at ha
            obtain ⟨ix, hix, ht⟩ := ha
            exact ⟨ix, hix, Or.inl (by simpa using ht)⟩
          · rw [List.any_eq_true] at hs
            obtain ⟨ix, hix, ht⟩ := hs
            exact ⟨ix, hix, Or.inr (by simpa using ht)⟩
        · exact ⟨hf.1.1, hf.1.2, hf.2⟩
      · simp at h
    · simp at h
  · rintro ⟨⟨ixa, hixa, hta⟩, ixt, hixt, htt, htruthy, hne⟩
    simp only [Hook.ruleDrainPattern]
    have hTC : (spl.any fun ix => ix.type == "transfer" || ix.type == "close")
        = true := by
      rw [List.any_eq_true]
      exact ⟨ixt, hixt, by rcases htt with h | h <;> simp [h]⟩
    have hAS : ((spl.any fun ix => ix.type == "approve") ||
        (spl.any fun ix => ix.type == "setAuthority")) = true := by
      rw [Bool.or_eq_true, List.any_eq_true, List.any_eq_true]
      rcases hta with h | h
      · exact Or.inl ⟨ixa, hixa, by simp [h]⟩
      · exact Or.inr ⟨ixa, hixa, by simp [h]⟩
    have hsusp : (spl.any fun ix =>
        (ix.type == "transfer" || ix.type == "close")
          && jsTruthy ix.destination && ix.destination != some u) = true := by
      rw [List.any_eq_true]
      refine ⟨ixt, hixt, ?_⟩
      rcases htt with h | h <;>
        simp [h, htruthy, bne_iff_ne, hne]
    rw [if_pos (by rw [Bool.and_eq_true]; exact ⟨hAS, hTC⟩), if_pos hsusp]
    simp

theorem Content.drain_mem_assess_iff (a : Content.TransactionAnalysis)
    (u : String) :
    Reason.drainPattern ∈ (Content.assessRisk a u).reasons ↔
      Reason.drainPattern ∈ Content.ruleDrainPattern a.splTokenInstructions u := by
  rw [Content.mem_assessRisk_reasons]
  constructor
  · rintro (h | h | h | h | h | h | h)
    · obtain ⟨d, hd⟩ := Content.shape_ruleUnlimitedApproval h
      simp at hd
    · rcases Content.shape_ruleSetAuthority h with ⟨k, n, hd⟩ | ⟨k, hd⟩ <;> simp at hd
    · obtain ⟨n, hd⟩ := Content.shape_ruleMultiAccount h
      simp at hd
    · obtain ⟨p, hd⟩ := Content.shape_ruleUnknownProgram h
      simp at hd
    · exact h
    · obtain ⟨d, hd⟩ := Content.shape_ruleSuspiciousClose h
      simp at hd
    · obtain ⟨amt, d, hd⟩ := Content.shape_ruleLargeTransfer h
      simp at hd
  · intro h
    exact Or.inr (Or.inr (Or.inr (Or.inr (Or.inl h))))

theorem Hook.drain_mem_assess_iffH (l : List Hook.DecodedInstruction)
    (aff : List String) (u : String) :
    Reason.drainPattern ∈ (Hook.assessRisk l aff u).reasons ↔
      Reason.drainPattern ∈ Hook.ruleDrainPattern
        (l.filter (fun ix => ix.program == "spl-token")) u := by
  rw [Hook.mem_assessRisk_reasonsH]
  constructor
  · rintro (h | h | h | h | h | h)
    · obtain ⟨d, hd⟩ := Hook.shape_ruleUnlimitedApprovalH h
      simp at hd
    · rcases Hook.shape_ruleSetAuthorityH h with ⟨k, n, hd⟩ | ⟨k, hd⟩ <;> simp at hd
    · obtain ⟨n, hd⟩ := Hook.shape_ruleMultiAccountH h
      simp at hd
    · obtain ⟨p, hd⟩ := Hook.shape_ruleUnknownProgramH h
      simp at hd
    · exact h
    · obtain ⟨d, hd⟩ := Hook.shape_ruleSuspiciousCloseH h
      simp at hd
  · intro h
    exact Or.inr (Or.inr (Or.inr (Or.inr (Or.inl h))))

theorem Content.count_drain_le_one (a : Content.TransactionAnalysis)
    (u : String) :
    (Content.assessRisk a u).reasons.count Reason.drainPattern ≤ 1 := by
  have h1 : (Content.ruleUnlimitedApproval a.splTokenInstructions).count
      Reason.drainPattern = 0 := List.count_eq_zero.mpr (fun h => by
    obtain ⟨d, hd⟩ := Content.shape_ruleUnlimitedApproval h; simp at hd)
  have h2 : (Content.ruleSetAuthority a.splTokenInstructions u).count
      Reason.drainPattern = 0 := List.count_eq_zero.mpr (fun h => by
    rcases Content.shape_ruleSetAuthority h with ⟨k, n, hd⟩ | ⟨k, hd⟩ <;> simp at hd)
  have h3 : (Content.ruleMultiAccount a.splTokenInstructions).count
      Reason.drainPattern = 0 := List.count_eq_zero.mpr (fun h => by
    obtain ⟨n, hd⟩ := Content.shape_ruleMultiAccount h; simp at hd)
  have h4 : (Content.ruleUnknownProgram a.instructions u).count
      Reason.drainPattern = 0 := List.count_eq_zero.mpr (fun h => by
    obtain ⟨p, hd⟩ := Content.shape_ruleUnknownProgram h; simp at hd)
  have h5 : (Content.ruleDrainPattern a.splTokenInstructions u).count
      Reason.drainPattern ≤ 1 := by
    simp only [Content.ruleDrainPattern]
    split
    · split <;> simp
    · simp
  have h6 : (Content.ruleSuspiciousClose a.splTokenInstructions u).count
      Reason.drainPattern = 0 := List.count_eq_zero.mpr (fun h => by
    obtain ⟨d, hd⟩ := Content.shape_ruleSuspiciousClose h; simp at hd)
  have h7 : (Content.ruleLargeTransfer a.splTokenInstructions u).count
      Reason.drainPattern = 0 := List.count_eq_zero.mpr (fun h => by
    obtain ⟨amt, d, hd⟩ := Content.shape_ruleLargeTransfer h; simp at hd)
  simp only [Content.assessRisk, List.count_append]
  omega

theorem Hook.count_drain_le_oneH (l : List Hook.DecodedInstruction)
    (aff : List String) (u : String) :
    (Hook.assessRisk l aff u).reasons.count Reason.drainPattern ≤ 1 := by
  have h1 : (Hook.ruleUnlimitedApproval
      (l.filter (fun ix => ix.program == "spl-token"))).count
      Reason.drainPattern = 0 := List.count_eq_zero.mpr (fun h => by
    obtain ⟨d, hd⟩ := Hook.shape_ruleUnlimitedApprovalH h; simp at hd)
  have h2 : (Hook.ruleSetAuthority
      (l.filter (fun ix => ix.program == "spl-token")) u).count
      Reason.drainPattern = 0 := List.count_eq_zero.mpr (fun h => by
    rcases Hook.shape_ruleSetAuthorityH h with ⟨k, n, hd⟩ | ⟨k, hd⟩ <;> simp at hd)
  have h3 : (Hook.ruleMultiAccount
      (l.filter (fun ix => ix.program == "spl-token"))).count
      Reason.drainPattern = 0 := List.count_eq_zero.mpr (fun h => by
    obtain ⟨n, hd⟩ := Hook.shape_ruleMultiAccountH h; simp at hd)
  have h4 : (Hook.ruleUnknownProgram l u).count
      Reason.drainPattern = 0 := List.count_eq_zero.mpr (fun h => by
    obtain ⟨p, hd⟩ := Hook.shape_ruleUnknownProgramH h; simp at hd)
  have h5 : (Hook.ruleDrainPattern
      (l.filter (fun ix => ix.program == "spl-token")) u).count
      Reason.drainPattern ≤ 1 := by
    simp only [Hook.ruleDrainPattern]
    split
    · split <;> simp
    · simp
  have h6 : (Hook.ruleSuspiciousClose
      (l.filter (fun ix => ix.program == "spl-token")) u).count
      Reason.drainPattern = 0 := List.count_eq_zero.mpr (fun h => by
    obtain ⟨d, hd⟩ := Hook.shape_ruleSuspiciousCloseH h; simp at hd)
  simp only [Hook.assessRisk, List.count_append]
  omega

/-- C3.  Over every parsed transaction, the drain-pattern finding is
emitted exactly when the decoded operations contain an Approve or
SetAuthority and also a Transfer or CloseAccount whose destination is
present and differs from the user address; it is emitted at most once per
transaction; an Approve plus a Transfer to the user's own address does
not trigger it, while the same Transfer to a third party does. -/
theorem C3_drain_pattern_exactly :
    (∀ (bytes : List Nat) (u : String),
      (Reason.drainPattern ∈
          (Content.assessRisk (Content.analyzeTransaction bytes) u).reasons ↔
        ((∃ ix ∈ (Content.analyzeTransaction bytes).splTokenInstructions,
            ix.type = "approve" ∨ ix.type = "setAuthority") ∧
         (∃ ix ∈ (Content.analyzeTransaction bytes).splTokenInstructions,
            (ix.type = "transfer" ∨ ix.type = "close") ∧
            ∃ d, ix.destination = some d ∧ d ≠ u)))
      ∧ (Content.assessRisk (Content.analyzeTransaction bytes) u).reasons.count
          Reason.drainPattern ≤ 1)
    ∧ (∀ (bytes : List Nat) (u : String),
      (Reason.drainPattern ∈
          (Hook.assessRisk (Hook.analyzeSerializedTransaction bytes).instructions
            (Hook.analyzeSerializedTransaction bytes).affectedAccounts u).reasons ↔
        ((∃ ix ∈ (Hook.analyzeSerializedTransaction bytes).instructions.filter
            (fun ix => ix.program == "spl-token"),
            ix.type = "approve" ∨ ix.type = "setAuthority") ∧
         (∃ ix ∈ (Hook.analyzeSerializedTransaction bytes).instructions.filter
            (fun ix => ix.program == "spl-token"),
            (ix.type = "transfer" ∨ ix.type = "close") ∧
            ∃ d, ix.destination = some d ∧ d ≠ u)))
      ∧ (Hook.assessRisk (Hook.analyzeSerializedTransaction bytes).instructions
          (Hook.analyzeSerializedTransaction bytes).affectedAccounts u).reasons.count
          Reason.drainPattern ≤ 1)
    ∧ (Content.assessRisk (Content.analysisOf
          [Content.approveFixture 7, Content.transferFixture "user"])
          "user").reasons.count Reason.drainPattern = 0
    ∧ (Content.assessRisk (Content.analysisOf
          [Content.approveFixture 7, Content.transferFixture "evil"])
          "user").reasons.count Reason.drainPattern = 1 := by
  refine ⟨?_, ?_, by decide, by decide⟩
  · intro bytes u
    refine ⟨?_, Content.count_drain_le_one _ u⟩
    rw [Content.drain_mem_assess_iff, Content.mem_ruleDrainPattern_iff]
    refine and_congr Iff.rfl ?_
    constructor
    · rintro ⟨ix, hix, htt, htruthy, hne⟩
      cases hd : ix.destination with
      | none =>
        rw [hd] at htruthy
        simp [jsTruthy] at htruthy
      | some d =>
        exact ⟨ix, hix, htt, d, hd, fun he => hne (by rw [hd, he])⟩
    · rintro ⟨ix, hix, htt, d, hd, hdu⟩
      have hne' : ix.destination ≠ some "" :=
        (Content.analyze_spl_fields_ne_empty bytes ix hix).2.1
      refine ⟨ix, hix, htt, ?_, ?_⟩
      · rw [hd]
        simp only [jsTruthy, ne_eq, decide_not, Bool.not_eq_true',
          decide_eq_false_iff_not]
        intro he
        exact hne' (by rw [hd, he])
      · rw [hd]
        intro he
        exact hdu (by simpa using he)
  · intro bytes u
    refine ⟨?_, Hook.count_drain_le_oneH _ _ u⟩
    rw [Hook.drain_mem_assess_iffH, Hook.mem_ruleDrainPattern_iffH]
    refine and_congr Iff.rfl ?_
    constructor
    · rintro ⟨ix, hix, htt, htruthy, hne⟩
      cases hd : ix.destination with
      | none =>
        rw [hd] at htruthy
        simp [jsTruthy] at htruthy
      | some d =>
        exact ⟨ix, hix, htt, d, hd, fun he => hne (by rw [hd, he])⟩
    · rintro ⟨ix, hix, htt, d, hd, hdu⟩
      have hmem : ix ∈ (Hook.analyzeSerializedTransaction bytes).instructions :=
        (List.mem_filter.mp hix).1
      have hne' : ix.destination ≠ some "" :=
        (Hook.analyze_fields_ne_emptyH bytes ix hmem).2.1
      refine ⟨ix, hix, htt, ?_, ?_⟩
      · rw [hd]
        simp only [jsTruthy, ne_eq, decide_not, Bool.not_eq_true',
          decide_eq_false_iff_not]
        intro he
        exact hne' (by rw [hd, he])
      · rw [hd]
        intro he
        exact hdu (by simpa using he)

/-- A small safety witness for C3 at a concrete input. -/
theorem C3_witness :
    (Content.assessRisk (Content.analyzeTransaction []) "user").reasons.count
      Reason.drainPattern ≤ 1 :=
  (C3_drain_pattern_exactly.1 [] "user").2

/-! ### Authority findings require a matching decoded authority -/

theorem Content.rule2_requires_authority {spl : List Content.DecodedInstruction}
    {u : String} {r : Reason} (h : r ∈ Content.ruleSetAuthority spl u) :
    ∃ ix ∈ spl, ix.authority = some u := by
  obtain ⟨ix, hix, hm⟩ := mem_collect.mp h
  split at hm
  · rcases List.mem_append.mp hm with h1 | h1
    · split at h1
      · rename_i hg
        rw [Bool.and_eq_true, Bool.and_eq_true] at hg
        exact ⟨ix, hix, by simpa using hg.1.1⟩
      · simp at h1
    · split at h1
      · rename_i hg
        rw [Bool.and_eq_true] at hg
        exact ⟨ix, hix, by simpa using hg.1⟩
      · simp at h1
  · simp at hm

theorem Hook.rule2_requires_authorityH {spl : List Hook.DecodedInstruction}
    {u : String} {r : Reason} (h : r ∈ Hook.ruleSetAuthority spl u) :
    ∃ ix ∈ spl, ix.authority = some u := by
  obtain ⟨ix, hix, hm⟩ := mem_collect.mp h
  split at hm
  · rcases List.mem_append.mp hm with h1 | h1
    · split at h1
      · rename_i hg
        rw [Bool.and_eq_true, Bool.and_eq_true] at hg
        exact ⟨ix, hix, by simpa using hg.1.1⟩
      · simp at h1
    · split at h1
      · rename_i hg
        rw [Bool.and_eq_true] at hg
        exact ⟨ix, hix, by simpa using hg.1⟩
      · simp at h1
  · simp at hm

theorem Content.authority_reason_from_rule2 {a : Content.TransactionAnalysis}
    {u : String} {r : Reason}
    (hr : (∃ k n, r = Reason.authorityTransfer k n) ∨
      (∃ k, r = Reason.authorityRevocation k))
    (h : r ∈ (Content.assessRisk a u).reasons) :
    r ∈ Content.ruleSetAuthority a.splTokenInstructions u := by
  rw [Content.mem_assessRisk_reasons] at h
  rcases h with h | h | h | h | h | h | h
  · obtain ⟨d, hd⟩ := Content.shape_ruleUnlimitedApproval h
    rcases hr with ⟨k, n, rfl⟩ | ⟨k, rfl⟩ <;> simp at hd
  · exact h
  · obtain ⟨n, hd⟩ := Content.shape_ruleMultiAccount h
    rcases hr with ⟨k, n, rfl⟩ | ⟨k, rfl⟩ <;> simp at hd
  · obtain ⟨p, hd⟩ := Content.shape_ruleUnknownProgram h
    rcases hr with ⟨k, n, rfl⟩ | ⟨k, rfl⟩ <;> simp at hd
  · have hd := Content.shape_ruleDrainPattern h
    rcases hr with ⟨k, n, rfl⟩ | ⟨k, rfl⟩ <;> simp at hd
  · obtain ⟨d, hd⟩ := Content.shape_ruleSuspiciousClose h
    rcases hr with ⟨k, n, rfl⟩ | ⟨k, rfl⟩ <;> simp at hd
  · obtain ⟨amt, d, hd⟩ := Content.shape_ruleLargeTransfer h
    rcases hr with ⟨k, n, rfl⟩ | ⟨k, rfl⟩ <;> simp at hd

theorem Hook.authority_reason_from_rule2H {l : List Hook.DecodedInstruction}
    {aff : List String} {u : String} {r : Reason}
    (hr : (∃ k n, r = Reason.authorityTransfer k n) ∨
      (∃ k, r = Reason.authorityRevocation k))
    (h : r ∈ (Hook.assessRisk l aff u).reasons) :
    r ∈ Hook.ruleSetAuthority
      (l.filter (fun ix => ix.program == "spl-token")) u := by
  rw [Hook.mem_assessRisk_reasonsH] at h
  rcases h with h | h | h | h | h | h
  · obtain ⟨d, hd⟩ := Hook.shape_ruleUnlimitedApprovalH h
    rcases hr with ⟨k, n, rfl⟩ | ⟨k, rfl⟩ <;> simp at hd
  · exact h
  · obtain ⟨n, hd⟩ := Hook.shape_ruleMultiAccountH h
    rcases hr with ⟨k, n, rfl⟩ | ⟨k, rfl⟩ <;> simp at hd
  · obtain ⟨p, hd⟩ := Hook.shape_ruleUnknownProgramH h
    rcases hr with ⟨k, n, rfl⟩ | ⟨k, rfl⟩ <;> simp at hd
  · have hd := Hook.shape_ruleDrainPatternH h
    rcases hr with ⟨k, n, rfl⟩ | ⟨k, rfl⟩ <;> simp at hd
  · obtain ⟨d, hd⟩ := Hook.shape_ruleSuspiciousCloseH h
    rcases hr with ⟨k, n, rfl⟩ | ⟨k, rfl⟩ <;> simp at hd

/-- C9.  With the empty string as user address (the hook's state when no
wallet key is known), neither engine ever emits an authority-transfer or
authority-revocation finding for any parsed transaction, because every
decoded `authority` field is either absent or a non-empty string (a
base58 rendering resolved through `accountKeys[idx] || placeholder`, or
an `unknown_<index>` placeholder). -/
theorem C9_empty_user_no_authority_findings :
    ∀ bytes : List Nat,
      ((Content.assessRisk (Content.analyzeTransaction bytes) "").reasons.filter
        Reason.isAuthorityFinding = [])
      ∧ ((Hook.assessRisk (Hook.analyzeSerializedTransaction bytes).instructions
          (Hook.analyzeSerializedTransaction bytes).affectedAccounts "").reasons.filter
        Reason.isAuthorityFinding = [])
      ∧ (∀ ix ∈ (Content.analyzeTransaction bytes).instructions,
          (ix.authority == some "") = false)
      ∧ (∀ ix ∈ (Hook.analyzeSerializedTransaction bytes).instructions,
          (ix.authority == some "") = false) := by
  intro bytes
  have hshape : ∀ r : Reason, Reason.isAuthorityFinding r = true →
      (∃ k n, r = Reason.authorityTransfer k n) ∨
      (∃ k, r = Reason.authorityRevocation k) := by
    intro r hr
    cases r <;> simp [Reason.isAuthorityFinding] at hr ⊢
  refine ⟨?_, ?_, ?_, ?_⟩
  · rw [List.filter_eq_nil_iff]
    intro r hmem hr
    obtain ⟨ix, hix, ha⟩ := Content.rule2_requires_authority
      (Content.authority_reason_from_rule2 (hshape r hr) hmem)
    exact (Content.analyze_spl_fields_ne_empty bytes ix hix).2.2 ha
  · rw [List.filter_eq_nil_iff]
    intro r hmem hr
    obtain ⟨ix, hix, ha⟩ := Hook.rule2_requires_authorityH
      (Hook.authority_reason_from_rule2H (hshape r hr) hmem)
    exact (Hook.analyze_fields_ne_emptyH bytes ix (List.mem_filter.mp hix).1).2.2 ha
  · intro ix hix
    have := (Content.analyze_fields_ne_empty bytes ix hix).2.2
    simpa using this
  · intro ix hix
    have := (Hook.analyze_fields_ne_emptyH bytes ix hix).2.2
    simpa using this

/-- Witness for C9 at a concrete input (the empty byte sequence): no
authority finding is produced for the empty-string user. -/
theorem C9_witness :
    (Content.assessRisk (Content.analyzeTransaction []) "").reasons.filter
      Reason.isAuthorityFinding = [] :=
  (C9_empty_user_no_authority_findings []).1

/-- C5, counterexample.  The claim says "the rule engine" emits a
large-transfer finding for every Transfer of at least `10^12` raw units
to a destination differing from the user; the page-hook rule engine has
no large-transfer rule at all: on an analysis holding exactly such a
Transfer it emits no finding whatsoever. -/
theorem C5_counterexample :
    (Hook.assessRisk [Hook.largeTransferFixture] [] "user") =
      { isHighRisk := false, reasons := [] } ∧
    Hook.largeTransferFixture.type = "transfer" ∧
    Hook.largeTransferFixture.amount = some 1000000000000 ∧
    Hook.largeTransferFixture.destination = some "dest" := by
  refine ⟨by decide, rfl, rfl, rfl⟩

/-- C5, amended.  For every parsed transaction, the content-script rule
engine emits an informational large-transfer finding for every decoded
Transfer whose destination is present and differs from the user address
and whose amount is at least `10^12` raw units; the page-hook engine has
no large-transfer rule and never emits that finding. -/
theorem C5_large_transfer_amended :
    (∀ (bytes : List Nat) (u : String) (ix : Content.DecodedInstruction)
        (amt : Nat) (d : String),
        ix ∈ (Content.analyzeTransaction bytes).splTokenInstructions →
        ix.type = "transfer" → ix.amount = some amt →
        LARGE_AMOUNT_THRESHOLD ≤ amt → ix.destination = some d → d ≠ u →
        Reason.largeTransfer amt (truncateAddress ix.destination) ∈
          (Content.assessRisk (Content.analyzeTransaction bytes) u).reasons)
    ∧ (∀ (l : List Hook.DecodedInstruction) (aff : List String) (u : String)
        (amt : Nat) (d : String),
        (Hook.assessRisk l aff u).reasons.count (Reason.largeTransfer amt d) = 0) := by
  constructor
  · intro bytes u ix amt d hmem htype hamt hthr hd hdu
    have hne : ix.destination ≠ some "" :=
      (Content.analyze_spl_fields_ne_empty bytes ix hmem).2.1
    have hdne : d ≠ "" := fun he => hne (by rw [hd, he])
    apply Content.mem_assessRisk_reasons.mpr
    right; right; right; right; right; right
    apply mem_collect.mpr
    refine ⟨ix, hmem, ?_⟩
    simp [htype, hamt, hd, jsTruthy, hdne, bne_iff_ne, hdu, hthr]
  · intro l aff u amt d
    have h1 : (Hook.ruleUnlimitedApproval
        (l.filter (fun ix => ix.program == "spl-token"))).count
        (Reason.largeTransfer amt d) = 0 := List.count_eq_zero.mpr (fun h => by
      obtain ⟨x, hd⟩ := Hook.shape_ruleUnlimitedApprovalH h; simp at hd)
    have h2 : (Hook.ruleSetAuthority
        (l.filter (fun ix => ix.program == "spl-token")) u).count
        (Reason.largeTransfer amt d) = 0 := List.count_eq_zero.mpr (fun h => by
      rcases Hook.shape_ruleSetAuthorityH h with ⟨k, n, hd⟩ | ⟨k, hd⟩ <;> simp at hd)
    have h3 : (Hook.ruleMultiAccount
        (l.filter (fun ix => ix.program == "spl-token"))).count
        (Reason.largeTransfer amt d) = 0 := List.count_eq_zero.mpr (fun h => by
      obtain ⟨n, hd⟩ := Hook.shape_ruleMultiAccountH h; simp at hd)
    have h4 : (Hook.ruleUnknownProgram l u).count
        (Reason.largeTransfer amt d) = 0 := List.count_eq_zero.mpr (fun h => by
      obtain ⟨p, hd⟩ := Hook.shape_ruleUnknownProgramH h; simp at hd)
    have h5 : (Hook.ruleDrainPattern
        (l.filter (fun ix => ix.program == "spl-token")) u).count
        (Reason.largeTransfer amt d) = 0 := List.count_eq_zero.mpr (fun h => by
      have hd := Hook.shape_ruleDrainPatternH h; simp at hd)
    have h6 : (Hook.ruleSuspiciousClose
        (l.filter (fun ix => ix.program == "spl-token")) u).count
        (Reason.largeTransfer amt d) = 0 := List.count_eq_zero.mpr (fun h => by
      obtain ⟨x, hd⟩ := Hook.shape_ruleSuspiciousCloseH h; simp at hd)
    simp only [Hook.assessRisk, List.count_append]
    omega

set_option maxRecDepth 100000 in
/-- Witness for C5 at a concrete input: the one-Transfer transaction of
`largeTransferTxBytes` produces the large-transfer finding for user
`"user"` in the content-script engine. -/
theorem C5_witness :
    Reason.largeTransfer 1000000000000
        (truncateAddress Content.largeTransferOp.destination) ∈
      (Content.assessRisk (Content.analyzeTransaction largeTransferTxBytes)
        "user").reasons := by
  exact C5_large_transfer_amended.1 largeTransferTxBytes "user"
    Content.largeTransferOp 1000000000000
    (encodeBase58 (List.replicate 32 2))
    (by decide) (by decide) (by decide) (by decide) (by decide) (by decide)

set_option maxRecDepth 100000 in
/-- C1, counterexample.  The content-script parser returns exactly the
declared instruction count without any bounds check: from this 40-byte
buffer it returns 100 decoded (placeholder) instructions, far more than
the at most 13 instructions such a buffer could possibly encode. -/
theorem C1_counterexample :
    overdeclaredTxBytes.length = 40 ∧
    maxEncodableInstructions overdeclaredTxBytes = 13 ∧
    (Content.analyzeTransaction overdeclaredTxBytes).instructions.length = 100 := by
  refine ⟨by decide, by decide, by decide⟩

/-- C1, amended.  For every byte sequence both parsers return a value
(the embedded functions are total — parsing never raises); the returned
instruction list has exactly (content-script copy) or at most (page-hook
copy) the length declared by the buffer's instruction-count varint.
That declared count is not bounded by what the bytes could actually
encode, so the content-script result can exceed any byte-derived bound. -/
theorem C1_total_parse_amended :
    ∀ bytes : List Nat,
      (Content.analyzeTransaction bytes).instructions.length =
        (if bytes = [] then 0 else (Content.parseHeader bytes).numInstructions)
      ∧ (Hook.analyzeSerializedTransaction bytes).instructions.length ≤
        (Hook.parseHeader bytes).numInstructions := by
  intro bytes
  constructor
  · unfold Content.analyzeTransaction
    split
    · rfl
    · simpa using Content.parseLoop_length bytes
        (Content.parseHeader bytes).accountKeys
        (Content.parseHeader bytes).numInstructions
        { offset := (Content.parseHeader bytes).instructionsStart,
          instructions := [], affected := [] }
  · simpa using Hook.parseLoop_length_le bytes
      (Hook.parseHeader bytes).accountKeys
      (Hook.parseHeader bytes).numInstructions
      { offset := (Hook.parseHeader bytes).instructionsStart,
        instructions := [], affected := [] }

/-- Witness for C1 at a concrete input. -/
theorem C1_witness :
    (Content.analyzeTransaction []).instructions.length = 0 ∧
    (Hook.analyzeSerializedTransaction []).instructions.length ≤
      (Hook.parseHeader []).numInstructions := by
  have h := C1_total_parse_amended []
  exact ⟨by rw [h.1]; rfl, h.2⟩

/-- C6, counterexample.  On an 11-byte buffer starting with 0 the claim
demands skipping the 1-byte prefix, but the page-hook parser resets to
offset 0 (its extra `offset ≥ length − 10` guard); on a 65-byte buffer
starting with 1 the claim demands skipping (1 + 64 does not exceed 65),
but the content-script parser only skips when the prefix end is strictly
inside the buffer. -/
theorem C6_counterexample :
    Hook.messageStart (List.replicate 11 0) = 0 ∧
    claimedMessageStart (List.replicate 11 0) = 1 ∧
    Content.messageStart (1 :: List.replicate 64 0) = 0 ∧
    claimedMessageStart (1 :: List.replicate 64 0) = 65 := by
  refine ⟨by decide, by decide, by decide, by decide⟩

/-- C6, amended.  For every nonempty byte sequence with first byte `c`:
the page-hook parser skips the signature prefix exactly when `c ≤ 127`
and `1 + 64c` is strictly less than the buffer length and also strictly
less than `length − 10` (JS number arithmetic, possibly negative);
the content-script parser skips exactly when `1 + 64c` is strictly less
than the buffer length, with no `c ≤ 127` check at all; otherwise both
parse from the start of the buffer. -/
theorem C6_prefix_sniffing_amended :
    ∀ (bytes : List Nat) (c : Nat), bytes.head? = some c →
      (Hook.messageStart bytes =
        if c ≤ 127 ∧ 1 + c * 64 < bytes.length ∧
            ((1 + c * 64 : ℤ) < (bytes.length : ℤ) - 10) then 1 + c * 64 else 0)
      ∧ (Content.messageStart bytes =
        if 1 + c * 64 < bytes.length then 1 + c * 64 else 0) := by
  intro bytes c hc
  constructor
  · unfold Hook.messageStart
    rw [hc]
    dsimp only
    by_cases hA : c ≤ 127 ∧ 1 + c * 64 < bytes.length
    · rw [if_pos hA]
      split_ifs <;> push_cast at * <;> omega
    · rw [if_neg hA]
      split_ifs <;> push_cast at * <;> omega
  · unfold Content.messageStart
    rw [hc]
    dsimp only
    split_ifs <;> omega

/-- Witness for C6 at a concrete input: a 20-byte buffer with first byte
0 makes both parsers skip exactly the 1-byte prefix. -/
theorem C6_witness :
    Hook.messageStart (0 :: List.replicate 19 7) = 1 ∧
    Content.messageStart (0 :: List.replicate 19 7) = 1 := by
  have h := C6_prefix_sniffing_amended (0 :: List.replicate 19 7) 0 (by decide)
  refine ⟨?_, ?_⟩
  · rw [h.1]
    decide
  · rw [h.2]
    decide

/-! ### C4: decoder minimum shapes -/

/-- C4, counterexample.  The page-hook decoder populates a Transfer from
nine data bytes even with an empty account list (fewer than the claimed
minimum of three accounts): the amount field is populated. -/
theorem C4_counterexample :
    (Hook.decodeInstruction SPL_TOKEN_PROGRAM_ID
      [3, 1, 0, 0, 0, 0, 0, 0, 0] []).amount = some 1 ∧
    ([] : List String).length < 3 := by
  refine ⟨by decide, by decide⟩

/-- C4, amended.  The content-script decoder constructs a populated
variant only when both the data length and the account count meet the
operation's minimum shape (Transfer 9/3, TransferChecked 10/4, Approve
9/3, ApproveChecked 10/4, SetAuthority 3/2, CloseAccount 0/3), and
otherwise returns the minimally-populated variant of the same tag; the
page-hook decoder checks only the data-length minimum for Transfer,
TransferChecked, Approve and ApproveChecked, populating account fields
from whatever account entries exist.  Neither decoder can fail. -/
theorem C4_decoder_minimum_shapes :
    (∀ (rest : List Nat) (accounts : List String),
      ((rest.length < 8 ∨ accounts.length < 3) →
        Content.decodeInstruction SPL_TOKEN_PROGRAM_ID (3 :: rest) accounts =
          Content.minimalWithRaw "spl-token" "transfer" SPL_TOKEN_PROGRAM_ID
            (3 :: rest) accounts)
      ∧ (8 ≤ rest.length → 3 ≤ accounts.length →
        Content.decodeInstruction SPL_TOKEN_PROGRAM_ID (3 :: rest) accounts =
          { program := "spl-token", type := "transfer", source := accounts[0]?,
            destination := accounts[1]?, authority := accounts[2]?,
            newAuthority := none, authorityType := none,
            amount := some (readUint64LE (3 :: rest) 1), mint := none,
            raw := none }))
    ∧ (∀ (rest : List Nat) (accounts : List String),
      ((rest.length < 9 ∨ accounts.length < 4) →
        Content.decodeInstruction SPL_TOKEN_PROGRAM_ID (12 :: rest) accounts =
          Content.minimalWithRaw "spl-token" "transfer" SPL_TOKEN_PROGRAM_ID
            (12 :: rest) accounts)
      ∧ (9 ≤ rest.length → 4 ≤ accounts.length →
        Content.decodeInstruction SPL_TOKEN_PROGRAM_ID (12 :: rest) accounts =
          { program := "spl-token", type := "transfer", source := accounts[0]?,
            destination := accounts[2]?, authority := accounts[3]?,
            newAuthority := none, authorityType := none,
            amount := some (readUint64LE (12 :: rest) 1), mint := accounts[1]?,
            raw := none }))
    ∧ (∀ (rest : List Nat) (accounts : List String),
      ((rest.length < 8 ∨ accounts.length < 3) →
        Content.decodeInstruction SPL_TOKEN_PROGRAM_ID (4 :: rest) accounts =
          Content.minimalWithRaw "spl-token" "approve" SPL_TOKEN_PROGRAM_ID
            (4 :: rest) accounts)
      ∧ (8 ≤ rest.length → 3 ≤ accounts.length →
        Content.decodeInstruction SPL_TOKEN_PROGRAM_ID (4 :: rest) accounts =
          { program := "spl-token", type := "approve", source := accounts[0]?,
            destination := accounts[1]?, authority := accounts[2]?,
            newAuthority := none, authorityType := none,
            amount := some (readUint64LE (4 :: rest) 1), mint := none,
            raw := none }))
    ∧ (∀ (rest : List Nat) (accounts : List String),
      ((rest.length < 9 ∨ accounts.length < 4) →
        Content.decodeInstruction SPL_TOKEN_PROGRAM_ID (13 :: rest) accounts =
          Content.minimalWithRaw "spl-token" "approve" SPL_TOKEN_PROGRAM_ID
            (13 :: rest) accounts)
      ∧ (9 ≤ rest.length → 4 ≤ accounts.length →
        Content.decodeInstruction SPL_TOKEN_PROGRAM_ID (13 :: rest) accounts =
          { program := "spl-token", type := "approve", source := accounts[0]?,
            destination := accounts[2]?, authority := accounts[3]?,
            newAuthority := none, authorityType := none,
            amount := some (readUint64LE (13 :: rest) 1), mint := accounts[1]?,
            raw := none }))
    ∧ (∀ (rest : List Nat) (accounts : List String),
      ((rest.length < 2 ∨ accounts.length < 2) →
        Content.decodeInstruction SPL_TOKEN_PROGRAM_ID (6 :: rest) accounts =
          Content.minimalWithRaw "spl-token" "setAuthority" SPL_TOKEN_PROGRAM_ID
            (6 :: rest) accounts)
      ∧ (2 ≤ rest.length → 2 ≤ accounts.length →
        Content.decodeInstruction SPL_TOKEN_PROGRAM_ID (6 :: rest) accounts =
          { program := "spl-token", type := "setAuthority",
            source := accounts[0]?, destination := none,
            authority := accounts[1]?,
            newAuthority := if (6 :: rest).getD 2 0 = 1 ∧ 35 ≤ (6 :: rest).length
              then some (encodeBase58 (jsSlice (6 :: rest) 3 32)) else none,
            authorityType := some (authorityTypeName ((6 :: rest).getD 1 0)),
            amount := none, mint := none, raw := none }))
    ∧ (∀ (rest : List Nat) (accounts : List String),
      (accounts.length < 3 →
        Content.decodeInstruction SPL_TOKEN_PROGRAM_ID (9 :: rest) accounts =
          Content.minimalWithRaw "spl-token" "close" SPL_TOKEN_PROGRAM_ID
            (9 :: rest) accounts)
      ∧ (3 ≤ accounts.length →
        Content.decodeInstruction SPL_TOKEN_PROGRAM_ID (9 :: rest) accounts =
          { program := "spl-token", type := "close", source := accounts[0]?,
            destination := accounts[1]?, authority := accounts[2]?,
            newAuthority := none, authorityType := none, amount := none,
            mint := none, raw := none }))
    ∧ (∀ (rest : List Nat) (accounts : List String),
      (rest.length < 8 →
        Hook.decodeInstruction SPL_TOKEN_PROGRAM_ID (3 :: rest) accounts =
          Hook.minimal "spl-token" "transfer")
      ∧ (8 ≤ rest.length →
        Hook.decodeInstruction SPL_TOKEN_PROGRAM_ID (3 :: rest) accounts =
          { program := "spl-token", type := "transfer", source := accounts[0]?,
            destination := accounts[1]?, authority := accounts[2]?,
            newAuthority := none, authorityType := none,
            amount := some (readUint64LE (3 :: rest) 1), accounts := none,
            programId := none }))
    ∧ (∀ (rest : List Nat) (accounts : List String),
      (rest.length < 9 →
        Hook.decodeInstruction SPL_TOKEN_PROGRAM_ID (12 :: rest) accounts =
          Hook.minimal "spl-token" "transfer")
      ∧ (9 ≤ rest.length →
        Hook.decodeInstruction SPL_TOKEN_PROGRAM_ID (12 :: rest) accounts =
          { program := "spl-token", type := "transfer", source := accounts[0]?,
            destination := accounts[2]?, authority := accounts[3]?,
            newAuthority := none, authorityType := none,
            amount := some (readUint64LE (12 :: rest) 1), accounts := none,
            programId := none }))
    ∧ (∀ (rest : List Nat) (accounts : List String),
      (rest.length < 8 →
        Hook.decodeInstruction SPL_TOKEN_PROGRAM_ID (4 :: rest) accounts =
          Hook.minimal "spl-token" "approve")
      ∧ (8 ≤ rest.length →
        Hook.decodeInstruction SPL_TOKEN_PROGRAM_ID (4 :: rest) accounts =
          { program := "spl-token", type := "approve", source := accounts[0]?,
            destination := accounts[1]?, authority := accounts[2]?,
            newAuthority := none, authorityType := none,
            amount := some (readUint64LE (4 :: rest) 1), accounts := none,
            programId := none }))
    ∧ (∀ (rest : List Nat) (accounts : List String),
      (rest.length < 9 →
        Hook.decodeInstruction SPL_TOKEN_PROGRAM_ID (13 :: rest) accounts =
          Hook.minimal "spl-token" "approve")
      ∧ (9 ≤ rest.length →
        Hook.decodeInstruction SPL_TOKEN_PROGRAM_ID (13 :: rest) accounts =
          { program := "spl-token", type := "approve", source := accounts[0]?,
            destination := accounts[2]?, authority := accounts[3]?,
            newAuthority := none, authorityType := none,
            amount := some (readUint64LE (13 :: rest) 1), accounts := none,
            programId := none })) := by
  refine ⟨?_, ?_, ?_, ?_, ?_, ?_, ?_, ?_, ?_, ?_⟩ <;> intro rest accounts <;>
    constructor
  · intro h
    simp [Content.decodeInstruction] <;> (intro h1 h2; omega)
  · intro h1 h2
    simp [Content.decodeInstruction] <;> (intro hc; omega)
  · intro h
    simp [Content.decodeInstruction] <;> (intro h1 h2; omega)
  · intro h1 h2
    simp [Content.decodeInstruction] <;> (intro hc; omega)
  · intro h
    simp [Content.decodeInstruction] <;> (intro h1 h2; omega)
  · intro h1 h2
    simp [Content.decodeInstruction] <;> (intro hc; omega)
  · intro h
    simp [Content.decodeInstruction] <;> (intro h1 h2; omega)
  · intro h1 h2
    simp [Content.decodeInstruction] <;> (intro hc; omega)
  · intro h
    simp [Content.decodeInstruction] <;> (intro h1 h2; omega)
  · intro h1 h2
    simp [Content.decodeInstruction] <;> (intro hc; omega)
  · intro h
    simp [Content.decodeInstruction, h]
  · intro h
    have hc : ¬accounts.length < 3 := by omega
    simp [Content.decodeInstruction, hc]
  · intro h
    simp [Hook.decodeInstruction] <;> (intro h1; omega)
  · intro h
    simp [Hook.decodeInstruction, Hook.minimal] <;> omega
  · intro h
    simp [Hook.decodeInstruction] <;> (intro h1; omega)
  · intro h
    simp [Hook.decodeInstruction, Hook.minimal] <;> omega
  · intro h
    simp [Hook.decodeInstruction] <;> (intro h1; omega)
  · intro h
    simp [Hook.decodeInstruction, Hook.minimal] <;> omega
  · intro h
    simp [Hook.decodeInstruction] <;> (intro h1; omega)
  · intro h
    simp [Hook.decodeInstruction, Hook.minimal] <;> omega

/-- Witness for C4 at a concrete input: a well-shaped Transfer decodes
with all fields populated in the content-script decoder. -/
theorem C4_witness :
    Content.decodeInstruction SPL_TOKEN_PROGRAM_ID
      [3, 5, 0, 0, 0, 0, 0, 0, 0] ["s", "d", "o"] =
      { program := "spl-token", type := "transfer", source := some "s",
        destination := some "d", authority := some "o", newAuthority := none,
        authorityType := none, amount := some 5, mint := none, raw := none } := by
  have h := (C4_decoder_minimum_shapes.1 [5, 0, 0, 0, 0, 0, 0, 0]
    ["s", "d", "o"]).2 (by decide) (by decide)
  rw [h]
  decide

/-! ### C8: the compact-u16 varint -/

theorem land127_eq_mod (x : Nat) : x &&& 127 = x % 128 := by
  have h := Nat.and_pow_two_sub_one_eq_mod x 7
  norm_num at h
  exact h

theorem land128_eq_zero {x : Nat} (h : x < 128) : x &&& 128 = 0 := by
  have h7 : x < 2 ^ 7 := by
    norm_num
    omega
  have h2 := Nat.and_two_pow x 7
  rw [Nat.testBit_lt_two_pow h7] at h2
  simpa using h2

theorem land128_ne_zero {x : Nat} (h1 : 128 ≤ x) (h2 : x < 256) :
    x &&& 128 ≠ 0 := by
  have h3 := Nat.and_two_pow x 7
  have ht : x.testBit 7 = true := by
    rw [Nat.testBit_to_div_mod]
    simp only [decide_eq_true_eq]
    omega
  rw [ht] at h3
  simp only [Bool.toNat_true, one_mul] at h3
  norm_num at h3
  omega

theorem lor_shift (k b a : Nat) (h : b < 2 ^ k) :
    b ||| (a <<< k) = a * 2 ^ k + b := by
  rw [Nat.shiftLeft_eq]
  calc b ||| a * 2 ^ k = a * 2 ^ k ||| b := Nat.or_comm _ _
    _ = 2 ^ k * a ||| b := by rw [Nat.mul_comm]
    _ = 2 ^ k * a + b := (Nat.mul_add_lt_is_or h a).symm
    _ = a * 2 ^ k + b := by rw [Nat.mul_comm]


/-- C8.  `readCompactU16` never reads more than 3 bytes (the third byte
is final even with its continuation bit set); a read past the buffer end
behaves as a zero byte, so decoding entirely past the end yields `(0, 1)`
rather than an error; and for every value below `2^21`, decoding the
value's own little-endian base-128 encoding reproduces the value with at
most 3 bytes consumed. -/
theorem C8_varint_decoder :
    (∀ (data : List Nat) (offset : Nat), (readCompactU16 data offset).2 ≤ 3)
    ∧ (∀ (data : List Nat) (offset : Nat), data.length ≤ offset →
        readCompactU16 data offset = (0, 1))
    ∧ (∀ v : Nat, v < 2 ^ 21 →
        readCompactU16 (encodeCompactU16 v) 0 = (v, (encodeCompactU16 v).length)
        ∧ (encodeCompactU16 v).length ≤ 3) := by
  refine ⟨?_, ?_, ?_⟩
  · intro data offset
    unfold readCompactU16
    dsimp only
    split
    · simp
    · split <;> simp
  · intro data offset h
    have h0 : data[offset]? = none := List.getElem?_eq_none h
    have h1 : data[offset + 1]? = none := List.getElem?_eq_none (by omega)
    have h2 : data[offset + 2]? = none := List.getElem?_eq_none (by omega)
    simp [readCompactU16, h0, h1, h2]
  · intro v hv
    by_cases h1 : v < 128
    · have he : encodeCompactU16 v = [v] := by rw [encodeCompactU16, if_pos h1]
      rw [he]
      refine ⟨?_, by simp⟩
      have hb : ([v] : List Nat).getD 0 0 = v := rfl
      simp [readCompactU16, hb, land128_eq_zero h1, land127_eq_mod,
        Nat.mod_eq_of_lt h1]
    · by_cases h2 : v < 16384
      · have he : encodeCompactU16 v = [v % 128 + 128, v / 128] := by
          rw [encodeCompactU16, if_neg h1, if_pos h2]
        rw [he]
        refine ⟨?_, by simp⟩
        have hb0 : ([v % 128 + 128, v / 128] : List Nat).getD 0 0 =
          v % 128 + 128 := rfl
        have hb1 : ([v % 128 + 128, v / 128] : List Nat).getD 1 0 = v / 128 := rfl
        have hd : v / 128 < 128 := by omega
        unfold readCompactU16
        rw [hb0, hb1]
        rw [if_neg (land128_ne_zero (by omega) (by omega)),
          if_pos (land128_eq_zero hd)]
        rw [land127_eq_mod, land127_eq_mod, Nat.mod_eq_of_lt hd]
        rw [lor_shift 7 ((v % 128 + 128) % 128) (v / 128) (by omega)]
        norm_num
        omega
      · have h3 : v / 16384 < 128 := by omega
        have he : encodeCompactU16 v =
            [v % 128 + 128, (v / 128) % 128 + 128, v / 16384] := by
          rw [encodeCompactU16, if_neg h1, if_neg h2]
        rw [he]
        refine ⟨?_, by simp⟩
        have hb0 : ([v % 128 + 128, (v / 128) % 128 + 128, v / 16384] :
          List Nat).getD 0 0 = v % 128 + 128 := rfl
        have hb1 : ([v % 128 + 128, (v / 128) % 128 + 128, v / 16384] :
          List Nat).getD 1 0 = (v / 128) % 128 + 128 := rfl
        have hb2 : ([v % 128 + 128, (v / 128) % 128 + 128, v / 16384] :
          List Nat).getD 2 0 = v / 16384 := rfl
        unfold readCompactU16
        rw [hb0, hb1, hb2]
        rw [if_neg (land128_ne_zero (by omega) (by omega)),
          if_neg (land128_ne_zero (by omega) (by omega))]
        dsimp only
        simp only [land127_eq_mod]
        have e1 : (v % 128 + 128) % 128 ||| ((v / 128 % 128 + 128) % 128) <<< 7 =
            ((v / 128 % 128 + 128) % 128) * 2 ^ 7 + (v % 128 + 128) % 128 :=
          lor_shift 7 _ _ (by norm_num; omega)
        rw [e1]
        have e2 : ((v / 128 % 128 + 128) % 128) * 2 ^ 7 + (v % 128 + 128) % 128 |||
            (v / 16384 % 128) <<< 14 =
            (v / 16384 % 128) * 2 ^ 14 +
              (((v / 128 % 128 + 128) % 128) * 2 ^ 7 + (v % 128 + 128) % 128) :=
          lor_shift 14 _ _ (by norm_num; omega)
        rw [e2]
        simp only [Prod.mk.injEq, List.length_cons, List.length_nil]
        constructor
        · norm_num
          omega
        · trivial

/-- Witness for C8 at concrete inputs: the 2-byte encoding of 300
round-trips, and a fully out-of-range read returns `(0, 1)`. -/
theorem C8_witness :
    readCompactU16 (encodeCompactU16 300) 0 = (300, (encodeCompactU16 300).length)
    ∧ readCompactU16 [] 5 = (0, 1) :=
  ⟨(C8_varint_decoder.2.2 300 (by decide)).1,
   C8_varint_decoder.2.1 [] 5 (by decide)⟩

theorem natDigitsAux_fuel_inv (b : Nat) (hb : 2 ≤ b) :
    ∀ n f1 f2, n ≤ f1 → n ≤ f2 → natDigitsAux b f1 n = natDigitsAux b f2 n := by
  intro n
  induction n using Nat.strong_induction_on with
  | _ n ih =>
    intro f1 f2 hf1 hf2
    by_cases h0 : n = 0
    · subst h0
      cases f1 <;> cases f2 <;> simp [natDigitsAux]
    · obtain ⟨g1, rfl⟩ : ∃ g, f1 = g + 1 := ⟨f1 - 1, by omega⟩
      obtain ⟨g2, rfl⟩ : ∃ g, f2 = g + 1 := ⟨f2 - 1, by omega⟩
      have hdiv : n / b < n := Nat.div_lt_self (by omega) (by omega)
      simp only [natDigitsAux, h0, if_false]
      rw [ih (n / b) hdiv g1 g2 (by omega) (by omega)]

theorem natDigitsMSB_step (b n : Nat) (hb : 2 ≤ b) (h0 : n ≠ 0) :
    natDigitsMSB b n = natDigitsMSB b (n / b) ++ [n % b] := by
  have hdiv : n / b < n := Nat.div_lt_self (by omega) (by omega)
  unfold natDigitsMSB
  obtain ⟨g, hg⟩ : ∃ g, n = g + 1 := ⟨n - 1, by omega⟩
  calc natDigitsAux b n n = natDigitsAux b (g + 1) n := by rw [← hg]
    _ = natDigitsAux b g (n / b) ++ [n % b] := by
        simp only [natDigitsAux, h0, if_false]
    _ = natDigitsAux b (n / b) (n / b) ++ [n % b] := by
        rw [natDigitsAux_fuel_inv b hb (n / b) g (n / b) (by omega) (by omega)]

theorem natDigitsMSB_lt (b : Nat) (hb : 2 ≤ b) :
    ∀ n, ∀ d ∈ natDigitsMSB b n, d < b := by
  intro n
  induction n using Nat.strong_induction_on with
  | _ n ih =>
    intro d hd
    by_cases h0 : n = 0
    · subst h0
      simp [natDigitsMSB, natDigitsAux] at hd
    · rw [natDigitsMSB_step b n hb h0] at hd
      rcases List.mem_append.mp hd with h | h
      · exact ih (n / b) (Nat.div_lt_self (by omega) (by omega)) d h
      · simp at h
        subst h
        exact Nat.mod_lt _ (by omega)

theorem natDigitsMSB_head (b : Nat) (hb : 2 ≤ b) :
    ∀ n, n ≠ 0 → ∃ h t, natDigitsMSB b n = h :: t ∧ h ≠ 0 ∧ h < b := by
  intro n
  induction n using Nat.strong_induction_on with
  | _ n ih =>
    intro h0
    rw [natDigitsMSB_step b n hb h0]
    by_cases hq : n / b = 0
    · have hnb : n < b := by
        rcases Nat.lt_or_ge n b with h | h
        · exact h
        · exact absurd (Nat.div_eq_zero_iff (by omega) |>.mp hq) (by omega)
      rw [hq]
      refine ⟨n % b, [], ?_, ?_, Nat.mod_lt _ (by omega)⟩
      · simp [natDigitsMSB, natDigitsAux]
      · rw [Nat.mod_eq_of_lt hnb]
        exact h0
    · obtain ⟨h, t, heq, hne, hlt⟩ :=
        ih (n / b) (Nat.div_lt_self (by omega) (by omega)) hq
      exact ⟨h, t ++ [n % b], by rw [heq]; rfl, hne, hlt⟩

theorem foldl_natDigitsMSB (b : Nat) (hb : 2 ≤ b) :
    ∀ n acc, List.foldl (fun a d => a * b + d) acc (natDigitsMSB b n) =
      acc * b ^ (natDigitsMSB b n).length + n := by
  intro n
  induction n using Nat.strong_induction_on with
  | _ n ih =>
    intro acc
    by_cases h0 : n = 0
    · subst h0
      simp [natDigitsMSB, natDigitsAux]
    · rw [natDigitsMSB_step b n hb h0]
      rw [List.foldl_append]
      rw [ih (n / b) (Nat.div_lt_self (by omega) (by omega)) acc]
      simp only [List.foldl_cons, List.foldl_nil, List.length_append,
        List.length_cons, List.length_nil]
      have hdm : b * (n / b) + n % b = n := Nat.div_add_mod n b
      simp only [Nat.zero_add]
      rw [Nat.pow_succ]
      ring_nf
      omega

theorem b58Index_getD : ∀ d : Nat, d < 58 →
    b58Index (BASE58_ALPHABET.data.getD d ' ') = some d := by
  decide

theorem b58_getD_zero : BASE58_ALPHABET.data.getD 0 ' ' = '1' := by
  decide

theorem b58_getD_ne_one : ∀ d : Nat, d < 58 → d ≠ 0 →
    BASE58_ALPHABET.data.getD d ' ' ≠ '1' := by
  decide

theorem b58Index_one : b58Index '1' = some 0 := by
  decide

theorem decodeFoldNum_ones : ∀ (z : Nat) (rest : List Char),
    decodeFoldNum (List.replicate z '1' ++ rest) 0 = decodeFoldNum rest 0 := by
  intro z
  induction z with
  | zero => intro rest; rfl
  | succ k ih =>
    intro rest
    simp only [List.replicate_succ, List.cons_append, decodeFoldNum, b58Index_one]
    exact ih rest

theorem decodeFoldNum_digits : ∀ (ds : List Nat) (acc : Nat),
    (∀ d ∈ ds, d < 58) →
    decodeFoldNum (ds.map (fun d => BASE58_ALPHABET.data.getD d ' ')) acc =
      .ok (ds.foldl (fun a d => a * 58 + d) acc) := by
  intro ds
  induction ds with
  | nil => intro acc h; rfl
  | cons d r ih =>
    intro acc h
    simp only [List.map_cons, decodeFoldNum,
      b58Index_getD d (h d (by simp)), List.foldl_cons]
    exact ih (acc * 58 + d) (fun x hx => h x (by simp [hx]))

theorem bytesToNat_append_one (r : List Nat) (x : Nat) :
    bytesToNat (r ++ [x]) = bytesToNat r * 256 + x := by
  unfold bytesToNat
  rw [List.foldl_append]
  rfl

theorem foldl_bytes_ge : ∀ (t : List Nat) (acc : Nat),
    acc ≤ List.foldl (fun a d => a * 256 + d) acc t := by
  intro t
  induction t with
  | nil => intro acc; simp
  | cons d r ih =>
    intro acc
    simp only [List.foldl_cons]
    calc acc ≤ acc * 256 + d := by omega
      _ ≤ List.foldl (fun a d => a * 256 + d) (acc * 256 + d) r := ih _

theorem bytesToNat_pos (h : Nat) (t : List Nat) (hh : h ≠ 0) :
    0 < bytesToNat (h :: t) := by
  unfold bytesToNat
  simp only [List.foldl_cons]
  calc 0 < h := by omega
    _ = 0 * 256 + h := by omega
    _ ≤ _ := foldl_bytes_ge t (0 * 256 + h)

theorem natDigitsMSB_bytesToNat : ∀ (r : List Nat),
    (∀ x ∈ r, x < 256) → (∀ h, r.head? = some h → h ≠ 0) →
    natDigitsMSB 256 (bytesToNat r) = r := by
  intro r
  induction r using List.reverseRecOn with
  | nil => intro _ _; rfl
  | append_singleton r x ih =>
    intro hlt hhead
    rw [bytesToNat_append_one]
    have hx : x < 256 := hlt x (by simp)
    cases r with
    | nil =>
      have hx0 : x ≠ 0 := hhead x (by simp)
      simp only [bytesToNat, List.foldl_nil, Nat.zero_mul, Nat.zero_add]
      rw [natDigitsMSB_step 256 x (by omega) hx0]
      rw [Nat.div_eq_of_lt hx, Nat.mod_eq_of_lt hx]
      rfl
    | cons h0 t0 =>
      have hh0 : h0 ≠ 0 := hhead h0 (by simp)
      have hpos : 0 < bytesToNat (h0 :: t0) := bytesToNat_pos h0 t0 hh0
      have hne : bytesToNat (h0 :: t0) * 256 + x ≠ 0 := by
        have := hpos
        omega
      rw [natDigitsMSB_step 256 _ (by omega) hne]
      have hdiv : (bytesToNat (h0 :: t0) * 256 + x) / 256 = bytesToNat (h0 :: t0) := by
        omega
      have hmod : (bytesToNat (h0 :: t0) * 256 + x) % 256 = x := by
        omega
      rw [hdiv, hmod]
      rw [ih (fun y hy => hlt y (by simp at hy ⊢; tauto))
        (fun h hmem => hhead h (by simpa using hmem))]

theorem leadingOneCount_replicate_append (z : Nat) (l : List Char) :
    leadingOneCount (List.replicate z '1' ++ l) = z + leadingOneCount l := by
  induction z with
  | zero => simp
  | succ k ih =>
    simp [List.replicate_succ, leadingOneCount, ih] <;> omega

theorem leadingOneCount_cons_ne {c : Char} (l : List Char) (h : c ≠ '1') :
    leadingOneCount (c :: l) = 0 := by
  simp [leadingOneCount, h]

theorem leadingZero_decomp : ∀ bytes : List Nat,
    bytes = List.replicate (leadingZeroCount bytes) 0 ++
      bytes.drop (leadingZeroCount bytes) ∧
    (∀ h, (bytes.drop (leadingZeroCount bytes)).head? = some h → h ≠ 0) := by
  intro bytes
  induction bytes with
  | nil => simp [leadingZeroCount]
  | cons b r ih =>
    by_cases hb : b = 0
    · subst hb
      have hl : leadingZeroCount (0 :: r) = leadingZeroCount r + 1 := by
        simp [leadingZeroCount]
      rw [hl]
      constructor
      · rw [List.replicate_succ]
        simp only [List.cons_append, List.drop_succ_cons]
        exact congrArg (List.cons 0) ih.1
      · simp only [List.drop_succ_cons]
        exact ih.2
    · have hl : leadingZeroCount (b :: r) = 0 := by simp [leadingZeroCount, hb]
      rw [hl]
      refine ⟨by simp, ?_⟩
      intro h hh
      simp only [List.drop_zero, List.head?_cons, Option.some.injEq] at hh
      omega

theorem foldl_replicate_zero : ∀ k : Nat,
    List.foldl (fun a d => a * 256 + d) 0 (List.replicate k 0) = 0 := by
  intro k
  induction k with
  | zero => rfl
  | succ n ih =>
    simp only [List.replicate_succ, List.foldl_cons]
    simpa using ih

theorem bytesToNat_replicate_zero (z : Nat) (r : List Nat) :
    bytesToNat (List.replicate z 0 ++ r) = bytesToNat r := by
  unfold bytesToNat
  rw [List.foldl_append, foldl_replicate_zero]

/-- C7. For every byte sequence b of length 0 to 64 (each entry a byte,
i.e. below 256), decodeBase58 (encodeBase58 b) recovers b exactly, and the
leading zero bytes of b appear as that many leading '1' characters of the
encoding. -/
theorem C7_base58_roundtrip : ∀ b : List Nat, b.length ≤ 64 → (∀ x ∈ b, x < 256) →
    decodeBase58 (encodeBase58 b) = .ok b ∧
    (encodeBase58 b).data.take (leadingZeroCount b) =
      List.replicate (leadingZeroCount b) '1' := by
  intro b _ hvalid
  by_cases hb : b = []
  · subst hb
    exact ⟨rfl, rfl⟩
  · have hdecomp := leadingZero_decomp b
    have hN : bytesToNat b = bytesToNat (b.drop (leadingZeroCount b)) := by
      conv_lhs => rw [hdecomp.1]
      exact bytesToNat_replicate_zero _ _
    have henc : encodeBase58 b = String.mk
        (List.replicate (leadingZeroCount b) '1' ++
          (natDigitsMSB 58 (bytesToNat (b.drop (leadingZeroCount b)))).map
            (fun d => BASE58_ALPHABET.data.getD d ' ')) := by
      rw [encodeBase58, if_neg hb, hN]
      congr 1
      simp only [List.map_append, List.map_replicate, b58_getD_zero]
    have hchars_ne : (List.replicate (leadingZeroCount b) '1' ++
        (natDigitsMSB 58 (bytesToNat (b.drop (leadingZeroCount b)))).map
          (fun d => BASE58_ALPHABET.data.getD d ' ')) ≠ [] := by
      by_cases hrest0 : b.drop (leadingZeroCount b) = []
      · have hzpos : leadingZeroCount b ≠ 0 := by
          intro h0
          apply hb
          rw [h0] at hrest0
          simpa using hrest0
        intro hcontra
        have hl := congrArg List.length hcontra
        simp at hl
        exact hzpos hl.1
      · have hne0 : bytesToNat (b.drop (leadingZeroCount b)) ≠ 0 := by
          cases hr : b.drop (leadingZeroCount b) with
          | nil => exact absurd hr hrest0
          | cons h0 t0 =>
            have hh0 : h0 ≠ 0 := hdecomp.2 h0 (by rw [hr]; rfl)
            have := bytesToNat_pos h0 t0 hh0
            omega
        obtain ⟨h1, t1, heq, -, -⟩ :=
          natDigitsMSB_head 58 (by omega) _ hne0
        rw [heq]
        simp
    have hstr_ne : String.mk (List.replicate (leadingZeroCount b) '1' ++
        (natDigitsMSB 58 (bytesToNat (b.drop (leadingZeroCount b)))).map
          (fun d => BASE58_ALPHABET.data.getD d ' ')) ≠ "" := by
      intro hcontra
      exact hchars_ne (congrArg String.data hcontra)
    have hdigits_lt : ∀ d ∈ natDigitsMSB 58
        (bytesToNat (b.drop (leadingZeroCount b))), d < 58 :=
      natDigitsMSB_lt 58 (by omega) _
    have hfold : decodeFoldNum (List.replicate (leadingZeroCount b) '1' ++
        (natDigitsMSB 58 (bytesToNat (b.drop (leadingZeroCount b)))).map
          (fun d => BASE58_ALPHABET.data.getD d ' ')) 0 =
        .ok (bytesToNat (b.drop (leadingZeroCount b))) := by
      rw [decodeFoldNum_ones]
      rw [decodeFoldNum_digits _ 0 hdigits_lt]
      rw [foldl_natDigitsMSB 58 (by omega)]
      norm_num
    have hones : leadingOneCount (List.replicate (leadingZeroCount b) '1' ++
        (natDigitsMSB 58 (bytesToNat (b.drop (leadingZeroCount b)))).map
          (fun d => BASE58_ALPHABET.data.getD d ' ')) = leadingZeroCount b := by
      rw [leadingOneCount_replicate_append]
      by_cases hN0 : bytesToNat (b.drop (leadingZeroCount b)) = 0
      · rw [hN0]
        simp [natDigitsMSB, natDigitsAux, leadingOneCount]
      · obtain ⟨h1, t1, heq, hne1, hlt1⟩ :=
          natDigitsMSB_head 58 (by omega) _ hN0
        rw [heq]
        simp only [List.map_cons]
        rw [leadingOneCount_cons_ne _ (b58_getD_ne_one h1 hlt1 hne1)]
        omega
    have hrestvalid : ∀ x ∈ b.drop (leadingZeroCount b), x < 256 :=
      fun x hx => hvalid x (List.mem_of_mem_drop hx)
    have hbytes : natDigitsMSB 256 (bytesToNat (b.drop (leadingZeroCount b))) =
        b.drop (leadingZeroCount b) :=
      natDigitsMSB_bytesToNat _ hrestvalid hdecomp.2
    constructor
    · rw [henc]
      unfold decodeBase58
      rw [if_neg hstr_ne]
      have hdata : (String.mk (List.replicate (leadingZeroCount b) '1' ++
          (natDigitsMSB 58 (bytesToNat (b.drop (leadingZeroCount b)))).map
            (fun d => BASE58_ALPHABET.data.getD d ' '))).data =
          List.replicate (leadingZeroCount b) '1' ++
          (natDigitsMSB 58 (bytesToNat (b.drop (leadingZeroCount b)))).map
            (fun d => BASE58_ALPHABET.data.getD d ' ') := rfl
      rw [hdata, hfold]
      dsimp only
      rw [hones, hbytes]
      rw [← hdecomp.1]
    · rw [henc]
      have := List.take_left (List.replicate (leadingZeroCount b) '1')
        ((natDigitsMSB 58 (bytesToNat (b.drop (leadingZeroCount b)))).map
          (fun d => BASE58_ALPHABET.data.getD d ' '))
      rw [List.length_replicate] at this
      exact this

theorem C7_witness :
    ([0, 0, 255, 1] : List Nat).length ≤ 64 ∧
    (∀ x ∈ ([0, 0, 255, 1] : List Nat), x < 256) ∧
    decodeBase58 (encodeBase58 [0, 0, 255, 1]) = .ok [0, 0, 255, 1] ∧
    (encodeBase58 [0, 0, 255, 1]).data.take (leadingZeroCount [0, 0, 255, 1]) =
      List.replicate (leadingZeroCount [0, 0, 255, 1]) '1' :=
  ⟨by decide, by decide,
   C7_base58_roundtrip [0, 0, 255, 1] (by decide) (by decide)⟩
